import Mathlib

/-!
# gtcpresto: the Presto REST client, embedded in Lean

The embedding follows `client.go` and `const.go`.

* A Go `error` is the text of its message; `none` stands for a `nil` error.
* A slice is a `List`; a `nil` slice and an empty slice are both `[]` (the
  code only ever takes `len` of a slice or appends to it).
* The HTTP transport (`http.DefaultClient.Do`) is a script: the list of the
  answers it will give to the next requests, in order. Every request handed
  to the transport, and every `time.Sleep`, is recorded in a trace.
* `net/url` parsing inside `http.NewRequest` is not part of the repository: it
  is the parameter `urlErr`, giving the parse error of a URL text, if any.
* A call either returns, faults on a nil pointer (the stored page or the
  request), is still waiting for the transport when the script ends, or runs
  out of the fuel that bounds the polling loop of `WaitQueryExec`.
-/

namespace Gtcpresto

/-! ## const.go -/

/-- Go `time.Millisecond`. A `time.Duration` is a number of nanoseconds, here a `Nat`. -/
def Millisecond : Nat := 1000000

def version : String := "1.0"
def userHeader : String := "X-Presto-User"
def sourceHeader : String := "X-Presto-Source"
def catalogHeader : String := "X-Presto-Catalog"
def schemaHeader : String := "X-Presto-Schema"
def userAgent : String := "tu-gc-presto/1.0"
def prestoSchema : String := "default"
def prestoUser : String := "zatxm"
def stateInit : String := "NONE"
def initialRetry : Nat := 50 * Millisecond
def maxRetry : Nat := 800 * Millisecond

/-! ## Data model (client.go) -/

/-- A decoded JSON value (Go `interface{}`), identified by its JSON text. -/
abbrev Value := String

/-- One element of `queryResult.Columns`. -/
structure Column where
  Name : String
deriving DecidableEq

/-- The struct `queryResult.Error.FailureInfo`. -/
structure FailureInfo where
  Message : String
deriving DecidableEq

/-- The struct `queryResult.Error`. -/
structure QueryError where
  ErrorCode : Int
  FailureInfo : FailureInfo
deriving DecidableEq

/-- The struct `queryResult.Stats`. -/
structure Stats where
  State : String
  Scheduled : Bool
  CompletedSplits : Int
  TotalSplits : Int
deriving DecidableEq

/-- One decoded response page. -/
structure queryResult where
  ID : String
  InfoUri : String
  NextUri : String
  PartialCancelUri : String
  Data : List Value
  Columns : List Column
  Error : QueryError
  Stats : Stats
deriving DecidableEq

/-- The session. `result` is a pointer in the source: `none` is `nil`. -/
structure prestoClient where
  prestoCatalog : String
  userAgent : String
  prestoUser : String
  prestoSchema : String
  nextUri : String
  infoUri : String
  partialCancelUri : String
  state : String
  url : String
  result : Option queryResult
  request : String
  datas : List Value
  columns : List String
  closed : Bool
deriving DecidableEq

/-! ## The HTTP world -/

/-- An `http.Request`: method, URL text, body text and header lines. -/
structure Request where
  Method : String
  URL : String
  Body : Option String
  Header : List (String × String)
deriving DecidableEq

/-- Result of a fallible step: a value or the text of a Go error. -/
inductive Res (α : Type) where
  | ok (a : α)
  | err (e : String)
deriving DecidableEq

/-- A response body, given by what reading and decoding it yields:
`readErr` is the error of `ioutil.ReadAll` if reading fails, `page` what
`json.Unmarshal` into a `queryResult` gives, `doc` what `json.Unmarshal` into
a `map[string]interface{}` gives. -/
structure Body where
  readErr : Option String
  page : Res queryResult
  doc : Res (List (String × Value))
deriving DecidableEq

/-- An `http.Response`. -/
structure Response where
  StatusCode : Nat
  Status : String
  Body : Body
deriving DecidableEq

/-- What `http.DefaultClient.Do` gives for one request. -/
inductive Answer where
  | fail (err : String)
  | resp (res : Response)
deriving DecidableEq

/-- What the client does to the outside, in order of time. -/
inductive Event where
  | sent (req : Request)
  | slept (d : Nat)
deriving DecidableEq

/-- The answers the transport has yet to give, and the trace so far. -/
structure World where
  answers : List Answer
  trace : List Event
deriving DecidableEq

/-- The nil pointer that a call dereferences when it faults: the stored
page `p.result`, or the request left by an `http.NewRequest` that failed. -/
inductive Fault where
  | nilResult
  | nilRequest
deriving DecidableEq

/-- How a call ends. -/
inductive Run (α : Type) where
  | ret (a : α)
  | panic (why : Fault)
  | blocked
  | outOfFuel
deriving DecidableEq

/-- Sequencing: a call that did not return ends the caller the same way. -/
def Run.bind {α β : Type} : Run α → (α → Run β) → Run β
  | .ret a, f => f a
  | .panic why, _ => .panic why
  | .blocked, _ => .blocked
  | .outOfFuel, _ => .outOfFuel

/-- The requests of a trace, in order. -/
def requestsOf : List Event → List Request
  | [] => []
  | .sent r :: es => r :: requestsOf es
  | .slept _ :: es => requestsOf es

/-- The sleeps of a trace, in order. -/
def sleepsOf : List Event → List Nat
  | [] => []
  | .sent _ :: es => sleepsOf es
  | .slept d :: es => d :: sleepsOf es

/-! ## client.go -/

section Client

variable (urlErr : String → Option String)

/-- Go `http.NewRequest` for the methods the client uses: it fails only
when the URL text does not parse. -/
def NewRequest (method url : String) (body : Option String) : Res Request :=
  match urlErr url with
  | some e => .err e
  | none => .ok ⟨method, url, body, []⟩

/-- The request pointer left by `req, _ := http.NewRequest(...)`. -/
def Res.ptr {α : Type} : Res α → Option α
  | .ok a => some a
  | .err _ => none

def New (curl catalog : String) : prestoClient :=
  { prestoCatalog := catalog
    userAgent := userAgent
    prestoUser := prestoUser
    prestoSchema := prestoSchema
    nextUri := ""
    infoUri := ""
    partialCancelUri := ""
    state := stateInit
    url := curl
    result := none
    request := ""
    datas := []
    columns := []
    closed := false }

/-- The four `req.Header.Add` calls of `makeRequest`. -/
def addHeaders (p : prestoClient) (req : Request) : Request :=
  { req with
    Header := req.Header ++
      [("User-Agent", p.userAgent), ("X-Presto-User", p.prestoUser),
       ("X-Presto-Catalog", p.prestoCatalog), ("X-Presto-Schema", p.prestoSchema)] }

/-- The update of `retry` at the end of one round of the loop. The product
stays far below 2^63 as `retry` never exceeds `maxRetry`. -/
def nextRetry (retry : Nat) : Nat :=
  if retry * 2 > maxRetry then maxRetry else retry * 2

/-- The `for` loop of `makeRequest`, one round per scripted answer. -/
def makeRequestLoop (req : Request) :
    Nat → List Answer → List Event → Run (Res Response × World)
  | _, [], _ => .blocked
  | retry, a :: rest, tr =>
    match a with
    | .fail e => .ret (.err e, ⟨rest, tr ++ [.sent req]⟩)
    | .resp res =>
      if res.StatusCode = 200 then
        .ret (.ok res, ⟨rest, tr ++ [.sent req]⟩)
      else if res.StatusCode ≠ 503 then
        .ret (.err ("unexpected http status: " ++ res.Status), ⟨rest, tr ++ [.sent req]⟩)
      else
        makeRequestLoop req (nextRetry retry) rest (tr ++ [.sent req, .slept retry])

def makeRequest (p : prestoClient) (req : Option Request) (w : World) :
    Run (Res Response × World) :=
  match req with
  | none => .panic .nilRequest
  | some r => makeRequestLoop (addHeaders p r) initialRetry w.answers w.trace

def readResultAll (resp : Response) : Res (List (String × Value)) :=
  match resp.Body.readErr with
  | some e => .err e
  | none => resp.Body.doc

def readResult (resp : Response) : Res queryResult :=
  match resp.Body.readErr with
  | some e => .err e
  | none => resp.Body.page

def getPrestoRequest (p : prestoClient) (req : Option Request) (w : World) :
    Run (Option String × prestoClient × World) :=
  (makeRequest p req w).bind fun (r, w1) =>
    match r with
    | .err e => .ret (some e, p, w1)
    | .ok res =>
      match readResult res with
      | .err e => .ret (some e, p, w1)
      | .ok result =>
        if result.Error.FailureInfo.Message ≠ "" then
          .ret (some ("query failed: " ++ result.Error.FailureInfo.Message), p, w1)
        else
          .ret (none, { p with result := some result }, w1)

def getNextQuery (p : prestoClient) (w : World) :
    Run (Option String × prestoClient × World) :=
  getPrestoRequest p (NewRequest urlErr "GET" p.nextUri none).ptr w

def getFirstQuery (p : prestoClient) (w : World) :
    Run (Option String × prestoClient × World) :=
  match NewRequest urlErr "POST" p.url (some p.request) with
  | .err e => .ret (some e, p, w)
  | .ok req =>
    (getPrestoRequest p (some req) w).bind fun (e, p1, w1) =>
      match e with
      | some e => .ret (some e, p1, w1)
      | none => .ret (none, { p1 with state := "RUNNING" }, w1)

def NewQuery (p : prestoClient) (request : String) (w : World) :
    Run (Option String × prestoClient × World) :=
  getFirstQuery urlErr { p with datas := [], request := request, nextUri := "" } w

def GetData (p : prestoClient) : List Value × prestoClient :=
  if p.state ≠ "FINISHED" then ([], p) else (p.datas, p)

def Columns (p : prestoClient) : List String × prestoClient :=
  (p.columns, p)

/-- The body of `getVarFromResult` once `dat := p.result` is known to point
to a page. -/
def foldResult (p : prestoClient) (dat : queryResult) : prestoClient :=
  let p := if dat.NextUri ≠ "" then { p with nextUri := dat.NextUri } else { p with nextUri := "" }
  let p := if dat.Data.length > 0 then { p with datas := p.datas ++ dat.Data } else p
  let p := if dat.InfoUri ≠ "" then { p with infoUri := dat.InfoUri } else p
  let p := if dat.PartialCancelUri ≠ "" then { p with partialCancelUri := dat.PartialCancelUri } else p
  let p := if dat.Stats.State ≠ "" then { p with state := dat.Stats.State } else p
  if p.columns.length = 0 then { p with columns := dat.Columns.map (·.Name) } else p

def getVarFromResult (p : prestoClient) : Run prestoClient :=
  match p.result with
  | none => .panic .nilResult
  | some dat => .ret (foldResult p dat)

/-- Go `strings.Split` on the characters of a text, for a one-character
separator. -/
def splitChars (sep : Char) : List Char → List (List Char)
  | [] => [[]]
  | c :: cs =>
    if c = sep then [] :: splitChars sep cs
    else
      match splitChars sep cs with
      | [] => [[c]]
      | h :: t => (c :: h) :: t

/-- Go `strings.Split(s, "/")`. -/
def Split (s : String) : List String :=
  (splitChars '/' s.data).map String.mk

/-- Go `strings.Join(a, "/")`. -/
def Join (a : List String) : String :=
  "/".intercalate a

/-- The URL that `GetFinishedQuery` builds from `p.url` and the query id. -/
def finishedQueryUrl (url id : String) : String :=
  let a := Split url
  let m := id ++ "?pretty"
  Join (a.take (a.length - 1) ++ ["query", m])

def GetFinishedQuery (p : prestoClient) (w : World) :
    Run (Res (List (String × Value)) × prestoClient × World) :=
  match p.result with
  | none => .panic .nilResult
  | some dat =>
    let q := finishedQueryUrl p.url dat.ID
    (makeRequest p (NewRequest urlErr "GET" q none).ptr w).bind fun (r, w1) =>
      match r with
      | .err e => .ret (.err e, p, w1)
      | .ok res => .ret (readResultAll res, p, w1)

def Close (p : prestoClient) (w : World) : Run (Option String × prestoClient × World) :=
  if p.closed then .ret (none, p, w)
  else
    let p := { p with closed := true }
    (makeRequest p (NewRequest urlErr "DELETE" p.nextUri none).ptr w).bind fun (r, w1) =>
      match r with
      | .err e => .ret (some e, p, w1)
      | .ok res =>
        if res.StatusCode ≠ 204 then
          .ret (some ("unexpected http status: " ++ res.Status), p, w1)
        else
          .ret (none, p, w1)

/-- The `for p.nextUri != ""` loop of `WaitQueryExec`. It returns
`some err` when the loop body returns `err`, and `none` when the loop ends. -/
def WaitQueryExecLoop :
    Nat → prestoClient → World → Run (Option String × prestoClient × World)
  | 0, _, _ => .outOfFuel
  | fuel + 1, p, w =>
    if p.nextUri ≠ "" then
      let w := { w with trace := w.trace ++ [.slept initialRetry] }
      (getNextQuery urlErr p w).bind fun (e, p1, w1) =>
        match e with
        | some e => .ret (some e, p1, w1)
        | none => (getVarFromResult p1).bind fun p2 => WaitQueryExecLoop fuel p2 w1
    else
      .ret (none, p, w)

/-- Every round of the loop takes at least one answer from the script, so
one more round than there are answers is fuel enough. -/
def WaitQueryExec (p : prestoClient) (w : World) :
    Run (Option String × prestoClient × World) :=
  (getVarFromResult p).bind fun p =>
    (WaitQueryExecLoop urlErr (w.answers.length + 1) p w).bind fun (e, p1, w1) =>
      match e with
      | some e => .ret (some e, p1, w1)
      | none =>
        if p1.state ≠ "FINISHED" then
          .ret (some "Incoherent State at end of query", p1, w1)
        else
          .ret (none, p1, w1)

end Client

/-! ## Scenarios: traces, scripts and sessions used to state the properties -/

/-- The trace left by `n` rounds of the loop of `makeRequest` that each met
a 503, the first of them sleeping `retry`. -/
def backoffTrace (req : Request) : Nat → Nat → List Event
  | _, 0 => []
  | retry, n + 1 => .sent req :: .slept retry :: backoffTrace req (nextRetry retry) n

/-- A 503 answer. -/
def busyResponse : Response :=
  ⟨503, "503 Service Unavailable", ⟨none, .err "unexpected end of JSON input", .err "unexpected end of JSON input"⟩⟩

/-- A 200 answer whose body decodes to the page `pg`. -/
def pageResponse (pg : queryResult) : Response :=
  ⟨200, "200 OK", ⟨none, .ok pg, .ok [("id", pg.ID)]⟩⟩

/-- A 204 answer with an empty body. -/
def noContentResponse : Response :=
  ⟨204, "204 No Content", ⟨none, .err "unexpected end of JSON input", .err "unexpected end of JSON input"⟩⟩

/-- A URL parser that accepts every text. -/
def anyUrl : String → Option String := fun _ => none

/-- A fresh session on a statement endpoint. -/
def freshClient : prestoClient := New "http://h:8080/v1/statement" "hive"

/-- A request before `makeRequest` adds its headers. -/
def plainGet : Request := ⟨"GET", "http://h:8080/v1/statement/q1/1", none, []⟩

/-- The operations a caller can apply to a session. -/
inductive Op where
  | newQuery (request : String)
  | waitQueryExec
  | getData
  | getFinishedQuery
  | columns
  | close
deriving DecidableEq

/-- One operation, keeping the session and the world it leaves. -/
def runOp (urlErr : String → Option String) :
    Op → prestoClient → World → Run (prestoClient × World)
  | .newQuery request, p, w => (NewQuery urlErr p request w).bind fun (_, p1, w1) => .ret (p1, w1)
  | .waitQueryExec, p, w => (WaitQueryExec urlErr p w).bind fun (_, p1, w1) => .ret (p1, w1)
  | .getData, p, w => .ret ((GetData p).2, w)
  | .getFinishedQuery, p, w =>
    (GetFinishedQuery urlErr p w).bind fun (_, p1, w1) => .ret (p1, w1)
  | .columns, p, w => .ret ((Columns p).2, w)
  | .close, p, w => (Close urlErr p w).bind fun (_, p1, w1) => .ret (p1, w1)

/-- A sequence of operations, each on the session and world left by the one
before. -/
def runOps (urlErr : String → Option String) :
    List Op → prestoClient → World → Run (prestoClient × World)
  | [], p, w => .ret (p, w)
  | op :: ops, p, w => (runOp urlErr op p w).bind fun (p1, w1) => runOps urlErr ops p1 w1

/-- The answer `a` is a 200 response whose body is read in full and decodes
to the page `pg`. -/
def Delivers (a : Answer) (pg : queryResult) : Prop :=
  ∃ res : Response,
    a = .resp res ∧ res.StatusCode = 200 ∧ res.Body.readErr = none ∧ res.Body.page = .ok pg

/-- Store the page `pg` as `p.result`, as `getPrestoRequest` does, and fold
it, as `getVarFromResult` then does. -/
def storeAndFold (p : prestoClient) (pg : queryResult) : Run prestoClient :=
  getVarFromResult { p with result := some pg }

/-- A sequence of pages stored and folded one after the other. -/
def foldPages : prestoClient → List queryResult → Run prestoClient
  | p, [] => .ret p
  | p, pg :: pages => (storeAndFold p pg).bind fun p1 => foldPages p1 pages

/-- The session after the pages were stored and folded one after the other. -/
def foldAll (p : prestoClient) (pages : List queryResult) : prestoClient :=
  pages.foldl (fun p pg => foldResult { p with result := some pg } pg) p

/-- The trace of the polls for `pages`, the first of them sent to `uri` and
each later one to the `nextUri` of the page before. -/
def pollTrace (p : prestoClient) : String → List queryResult → List Event
  | _, [] => []
  | uri, pg :: pages =>
    .slept initialRetry :: .sent (addHeaders p ⟨"GET", uri, none, []⟩) ::
      pollTrace p pg.NextUri pages

/-- The continuation in force after `pages`, when it was `uri` before them. -/
def lastUri : String → List queryResult → String
  | uri, [] => uri
  | _, pg :: pages => lastUri pg.NextUri pages

/-- The loop of `WaitQueryExec` polls for each of `pages` in turn: the
continuation before each page is non-empty and parses, and each page is free
of a failure message. -/
def Polls (urlErr : String → Option String) : String → List queryResult → Prop
  | _, [] => True
  | uri, pg :: pages =>
    uri ≠ "" ∧ urlErr uri = none ∧ pg.Error.FailureInfo.Message = "" ∧
      Polls urlErr pg.NextUri pages

/-- The answer `a` lets a poll succeed: it is a 503, which `makeRequest`
retries, or a 200 response whose body is read in full and decodes to a page
without a failure message. -/
def PollOk (a : Answer) : Prop :=
  (∃ res : Response, a = .resp res ∧ res.StatusCode = 503) ∨
  ∃ pg : queryResult, Delivers a pg ∧ pg.Error.FailureInfo.Message = ""

/-- The error with which a request made through `getPrestoRequest` fails
when `b` is the answer to its first attempt: a transport error, a status
other than 200 and 503, a body that cannot be read or decoded, or a page with
a failure message; `none` when `b` does not make the request fail. -/
def failureOf : Answer → Option String
  | .fail e => some e
  | .resp res =>
    if res.StatusCode = 200 then
      match readResult res with
      | .err e => some e
      | .ok pg =>
        if pg.Error.FailureInfo.Message ≠ "" then
          some ("query failed: " ++ pg.Error.FailureInfo.Message)
        else none
    else if res.StatusCode ≠ 503 then some ("unexpected http status: " ++ res.Status)
    else none

/-- A first page: the query is queued, no rows yet. -/
def queuedPage : queryResult :=
  ⟨"q1", "http://h:8080/ui/q1", "http://h:8080/v1/statement/q1/1", "", [], [],
    ⟨0, ⟨""⟩⟩, ⟨"QUEUED", false, 0, 0⟩⟩

/-- A middle page: rows, columns and a continuation. -/
def runningPage : queryResult :=
  ⟨"q1", "http://h:8080/ui/q1", "http://h:8080/v1/statement/q1/2", "", ["[1,2]", "[3,4]"],
    [⟨"a"⟩, ⟨"b"⟩], ⟨0, ⟨""⟩⟩, ⟨"RUNNING", true, 0, 1⟩⟩

/-- A page that reports "FINISHED" and still names a continuation. -/
def finishedEarlyPage : queryResult :=
  ⟨"q1", "http://h:8080/ui/q1", "http://h:8080/v1/statement/q1/1", "", ["[1]"], [⟨"n"⟩],
    ⟨0, ⟨""⟩⟩, ⟨"FINISHED", true, 1, 1⟩⟩

/-- A last page without a state: no continuation, `stats.state` empty. -/
def silentPage : queryResult :=
  ⟨"q1", "", "", "", [], [], ⟨0, ⟨""⟩⟩, ⟨"", false, 0, 0⟩⟩

/-- A last page of a canceled query: no continuation, state "CANCELED". -/
def canceledPage : queryResult :=
  ⟨"q1", "", "", "", [], [], ⟨0, ⟨""⟩⟩, ⟨"CANCELED", false, 0, 0⟩⟩

/-- A page of a failed query, carrying a failure message. -/
def failedPage : queryResult :=
  ⟨"q1", "", "", "", [], [], ⟨1, ⟨"line 1:8: Column x cannot be resolved"⟩⟩,
    ⟨"FAILED", false, 0, 0⟩⟩

/-- A session left by an earlier query that ran to "FINISHED". -/
def usedClient : prestoClient :=
  { freshClient with
    request := "SELECT 1", result := some canceledPage, state := "FINISHED",
    nextUri := "http://h:8080/v1/statement/q0/7", datas := ["[0]"],
    infoUri := "http://h:8080/ui/q0", columns := ["n"] }

/-- A last page: no continuation, state "FINISHED". -/
def finishedPage : queryResult :=
  ⟨"q1", "http://h:8080/ui/q1", "", "", ["[1]"], [⟨"n"⟩], ⟨0, ⟨""⟩⟩, ⟨"FINISHED", true, 1, 1⟩⟩

end Gtcpresto

/-! # Theorems -/

namespace Gtcpresto

/-! ## The retrying request executor (`makeRequest`) -/

@[simp] theorem Run.bind_ret {α β : Type} (a : α) (f : α → Run β) :
    (Run.ret a).bind f = f a := rfl

@[simp] theorem Run.bind_panic {α β : Type} (why : Fault) (f : α → Run β) :
    (Run.panic why : Run α).bind f = .panic why := rfl

@[simp] theorem Run.bind_blocked {α β : Type} (f : α → Run β) :
    (Run.blocked : Run α).bind f = .blocked := rfl

@[simp] theorem Run.bind_outOfFuel {α β : Type} (f : α → Run β) :
    (Run.outOfFuel : Run α).bind f = .outOfFuel := rfl

theorem requestsOf_append (xs ys : List Event) :
    requestsOf (xs ++ ys) = requestsOf xs ++ requestsOf ys := by
  induction xs with
  | nil => rfl
  | cons e es ih => cases e <;> simp [requestsOf, ih]

theorem sleepsOf_append (xs ys : List Event) :
    sleepsOf (xs ++ ys) = sleepsOf xs ++ sleepsOf ys := by
  induction xs with
  | nil => rfl
  | cons e es ih => cases e <;> simp [sleepsOf, ih]

theorem requestsOf_backoffTrace (req : Request) (retry : Nat) (n : Nat) :
    requestsOf (backoffTrace req retry n) = List.replicate n req := by
  induction n generalizing retry with
  | zero => rfl
  | succ n ih => simp [backoffTrace, requestsOf, ih, List.replicate_succ]

theorem sleepsOf_backoffTrace (req : Request) (retry : Nat) (n : Nat) :
    sleepsOf (backoffTrace req retry n) = (List.range n).map (fun i => nextRetry^[i] retry) := by
  induction n generalizing retry with
  | zero => rfl
  | succ n ih =>
    simp [backoffTrace, sleepsOf, ih, List.range_succ_eq_map, List.map_map, Function.comp_def]

/-- Rounds that meet a 503 sleep, double the delay up to the cap, and go on
with the rest of the script. -/
theorem makeRequestLoop_busy (req : Request) (busy : List Response)
    (hbusy : ∀ r ∈ busy, r.StatusCode = 503) (retry : Nat)
    (rest : List Answer) (tr : List Event) :
    makeRequestLoop req retry (busy.map Answer.resp ++ rest) tr =
      makeRequestLoop req (nextRetry^[busy.length] retry) rest
        (tr ++ backoffTrace req retry busy.length) := by
  induction busy generalizing retry tr with
  | nil => simp [backoffTrace]
  | cons b bs ih =>
    have hb : b.StatusCode = 503 := hbusy b (by simp)
    have hbs : ∀ r ∈ bs, r.StatusCode = 503 := fun r hr => hbusy r (by simp [hr])
    simp only [List.map_cons, List.cons_append, makeRequestLoop, hb]
    simp [ih hbs, backoffTrace]

/-- The delay before retry number `i` of one call of `makeRequest`. -/
theorem nextRetry_iterate (i : Nat) :
    nextRetry^[i] initialRetry = min (50 * 2 ^ i) 800 * Millisecond := by
  induction i with
  | zero => simp [initialRetry, Millisecond]
  | succ i ih =>
    rw [Function.iterate_succ_apply', ih]
    have h2 : 2 ^ (i + 1) = 2 * 2 ^ i := by ring
    rw [h2]
    generalize 2 ^ i = x
    clear ih h2
    simp only [nextRetry, maxRetry, Millisecond]
    split <;> omega

theorem backoffTrace_eq_flatMap (req : Request) (retry : Nat) (n : Nat) :
    backoffTrace req retry n =
      (List.range n).flatMap (fun i => [Event.sent req, Event.slept (nextRetry^[i] retry)]) := by
  induction n generalizing retry with
  | zero => rfl
  | succ n ih =>
    simp [backoffTrace, ih, List.range_succ_eq_map, List.flatMap_map, Function.comp_def]

/-- A round that meets anything but a 503 ends the loop. -/
theorem makeRequestLoop_final (req : Request) (a : Answer)
    (ha : ∀ res, a = .resp res → res.StatusCode ≠ 503) (retry : Nat)
    (rest : List Answer) (tr : List Event) :
    makeRequestLoop req retry (a :: rest) tr =
      .ret (match a with
            | .fail e => .err e
            | .resp res =>
              if res.StatusCode = 200 then .ok res
              else .err ("unexpected http status: " ++ res.Status),
            ⟨rest, tr ++ [.sent req]⟩) := by
  cases a with
  | fail e => simp [makeRequestLoop]
  | resp res =>
    have h := ha res rfl
    by_cases h200 : res.StatusCode = 200 <;> simp [makeRequestLoop, h, h200]

/-- The loop hands back a response only when its status is 200. -/
theorem makeRequestLoop_ok_status (req : Request) (answers : List Answer) (retry : Nat)
    (tr : List Event) (res : Response) (w : World)
    (h : makeRequestLoop req retry answers tr = .ret (.ok res, w)) :
    res.StatusCode = 200 := by
  induction answers generalizing retry tr with
  | nil => simp [makeRequestLoop] at h
  | cons a rest ih =>
    cases a with
    | fail e => simp [makeRequestLoop] at h
    | resp r =>
      simp only [makeRequestLoop] at h
      split at h
      · rename_i h200
        simp only [Run.ret.injEq, Prod.mk.injEq, Res.ok.injEq] at h
        rw [← h.1]; exact h200
      · split at h
        · simp at h
        · exact ih _ _ h

/-- What `makeRequest` does on a script that starts with 503 answers
followed by an answer that is not a 503. -/
theorem makeRequest_script (p : prestoClient) (req : Request) (busy : List Response)
    (a : Answer) (rest : List Answer) (tr : List Event)
    (hbusy : ∀ r ∈ busy, r.StatusCode = 503)
    (ha : ∀ res, a = .resp res → res.StatusCode ≠ 503) :
    makeRequest p (some req) ⟨busy.map Answer.resp ++ a :: rest, tr⟩ =
      .ret (match a with
            | .fail e => .err e
            | .resp res =>
              if res.StatusCode = 200 then .ok res
              else .err ("unexpected http status: " ++ res.Status),
            ⟨rest, (tr ++ backoffTrace (addHeaders p req) initialRetry busy.length) ++
              [.sent (addHeaders p req)]⟩) := by
  simp only [makeRequest]
  rw [makeRequestLoop_busy _ _ hbusy, makeRequestLoop_final _ _ ha]

/-- What `makeRequest` does when the first answer is not a 503. -/
theorem makeRequest_first (p : prestoClient) (req : Request)
    (a : Answer) (rest : List Answer) (tr : List Event)
    (ha : ∀ res, a = .resp res → res.StatusCode ≠ 503) :
    makeRequest p (some req) ⟨a :: rest, tr⟩ =
      .ret (match a with
            | .fail e => .err e
            | .resp res =>
              if res.StatusCode = 200 then .ok res
              else .err ("unexpected http status: " ++ res.Status),
            ⟨rest, tr ++ [.sent (addHeaders p req)]⟩) := by
  simpa [backoffTrace] using makeRequest_script p req [] a rest tr (by simp) ha

/-! ## Claims about `makeRequest` and `GetData` -/

/-- C7: `GetData` returns the accumulated rows `datas` when `state` is
"FINISHED" and no rows for every other state, whatever `datas` holds, and it
hands back the session unchanged. -/
theorem C7_getData_gated_on_finished (p : prestoClient) :
    GetData p = (if p.state = "FINISHED" then p.datas else [], p) := by
  unfold GetData
  by_cases h : p.state = "FINISHED" <;> simp [h]

/-- C8: when the transport answers 503 `n` times and then 200, `makeRequest`
returns the 200 response with no error after exactly `n + 1` requests, and the
sleep after the `i`-th 503 is `min (50 * 2 ^ i) 800` milliseconds. -/
theorem C8_backoff_then_ok (p : prestoClient) (req : Request) (busy : List Response)
    (ok : Response) (rest : List Answer) (tr : List Event)
    (hbusy : ∀ r ∈ busy, r.StatusCode = 503) (hok : ok.StatusCode = 200) :
    ∃ evs : List Event,
      makeRequest p (some req) ⟨busy.map Answer.resp ++ Answer.resp ok :: rest, tr⟩ =
        .ret (.ok ok, ⟨rest, tr ++ evs⟩) ∧
      evs = (List.range busy.length).flatMap (fun i =>
          [Event.sent (addHeaders p req), Event.slept (min (50 * 2 ^ i) 800 * Millisecond)]) ++
        [Event.sent (addHeaders p req)] ∧
      requestsOf evs = List.replicate (busy.length + 1) (addHeaders p req) ∧
      sleepsOf evs = (List.range busy.length).map (fun i => min (50 * 2 ^ i) 800 * Millisecond) := by
  refine ⟨backoffTrace (addHeaders p req) initialRetry busy.length ++
    [Event.sent (addHeaders p req)], ?_, ?_, ?_, ?_⟩
  · rw [makeRequest_script p req busy _ rest tr hbusy (by
      intro res hres; cases hres; omega)]
    simp [hok]
  · rw [backoffTrace_eq_flatMap]
    simp only [nextRetry_iterate]
  · rw [requestsOf_append, requestsOf_backoffTrace]
    simp [requestsOf, List.replicate_succ']
  · rw [sleepsOf_append, sleepsOf_backoffTrace]
    simp [sleepsOf, nextRetry_iterate]

/-- C8 at three 503 answers: four requests, sleeps of 50ms, 100ms, 200ms. -/
theorem C8_backoff_then_ok_witness :
    ∃ evs : List Event,
      makeRequest freshClient (some plainGet)
          ⟨[.resp busyResponse, .resp busyResponse, .resp busyResponse,
            .resp (pageResponse ⟨"q1", "", "", "", [], [], ⟨0, ⟨""⟩⟩, ⟨"", false, 0, 0⟩⟩)], []⟩ =
        .ret (.ok (pageResponse ⟨"q1", "", "", "", [], [], ⟨0, ⟨""⟩⟩, ⟨"", false, 0, 0⟩⟩),
          ⟨[], evs⟩) ∧
      (requestsOf evs).length = 4 ∧
      sleepsOf evs = [50 * Millisecond, 100 * Millisecond, 200 * Millisecond] := by
  obtain ⟨evs, h1, _, h3, h4⟩ := C8_backoff_then_ok freshClient plainGet
    [busyResponse, busyResponse, busyResponse]
    (pageResponse ⟨"q1", "", "", "", [], [], ⟨0, ⟨""⟩⟩, ⟨"", false, 0, 0⟩⟩) [] []
    (by decide) (by decide)
  refine ⟨evs, by simpa using h1, by rw [h3]; rfl, by rw [h4]; decide⟩

/-- C10: `makeRequest` stops at the first answer that is not a 503. A
transport failure is returned as it is, a 200 response is returned with no
error, any other status gives an error naming it; the answers after that one
are left in the script and the requests sent are one per answer taken. -/
theorem C10_stops_at_first_final_answer (p : prestoClient) (req : Request)
    (busy : List Response) (a : Answer) (rest : List Answer) (tr : List Event)
    (hbusy : ∀ r ∈ busy, r.StatusCode = 503)
    (ha : ∀ res, a = .resp res → res.StatusCode ≠ 503) :
    ∃ (r : Res Response) (w : World),
      makeRequest p (some req) ⟨busy.map Answer.resp ++ a :: rest, tr⟩ = .ret (r, w) ∧
      w.answers = rest ∧
      requestsOf w.trace = requestsOf tr ++ List.replicate (busy.length + 1) (addHeaders p req) ∧
      (∀ e, a = .fail e → r = .err e) ∧
      (∀ res, a = .resp res → res.StatusCode = 200 → r = .ok res) ∧
      (∀ res, a = .resp res → res.StatusCode ≠ 200 →
        r = .err ("unexpected http status: " ++ res.Status)) := by
  refine ⟨_, _, makeRequest_script p req busy a rest tr hbusy ha, rfl, ?_, ?_, ?_, ?_⟩
  · simp [requestsOf_append, requestsOf_backoffTrace, requestsOf, List.replicate_succ']
  · intro e he; subst he; rfl
  · intro res hres h200; subst hres; simp [h200]
  · intro res hres h200; subst hres; simp [h200]

/-- C10 at a script of two 503 answers and then a 404: the error names the
404 and the answer after it stays in the script. -/
theorem C10_stops_at_first_final_answer_witness :
    ∃ (r : Res Response) (w : World),
      makeRequest freshClient (some plainGet)
          ⟨[.resp busyResponse, .resp busyResponse,
            .resp ⟨404, "404 Not Found", ⟨none, .err "", .err ""⟩⟩, .fail "EOF"], []⟩ =
        .ret (r, w) ∧
      w.answers = [.fail "EOF"] ∧
      requestsOf w.trace = List.replicate 3 (addHeaders freshClient plainGet) ∧
      r = .err "unexpected http status: 404 Not Found" := by
  obtain ⟨r, w, h1, h2, h3, _, _, h6⟩ := C10_stops_at_first_final_answer freshClient plainGet
    [busyResponse, busyResponse] (.resp ⟨404, "404 Not Found", ⟨none, .err "", .err ""⟩⟩)
    [.fail "EOF"] [] (by decide) (by intro res hres; cases hres; decide)
  exact ⟨r, w, by simpa using h1, h2, by simpa [requestsOf] using h3, h6 _ rfl (by decide)⟩

/-! ## `Close` -/

theorem Run.bind_eq_ret {α β : Type} (r : Run α) (f : α → Run β) (b : β) :
    r.bind f = .ret b ↔ ∃ a, r = .ret a ∧ f a = .ret b := by
  cases r <;> simp [Run.bind]

/-- `makeRequest` hands back a response only when its status is 200. -/
theorem makeRequest_ok_status (p : prestoClient) (req : Option Request) (w w1 : World)
    (res : Response) (h : makeRequest p req w = .ret (.ok res, w1)) :
    res.StatusCode = 200 := by
  cases req with
  | none => simp [makeRequest] at h
  | some r => exact makeRequestLoop_ok_status _ _ _ _ _ _ h

/-- A closed session: `Close` returns `nil` at once and touches nothing. -/
theorem Close_closed (urlErr : String → Option String) (p : prestoClient) (w : World)
    (h : p.closed = true) : Close urlErr p w = .ret (none, p, w) := by
  simp [Close, h]

/-- An open session: `Close` is the DELETE through `makeRequest` followed by
the test for status 204. -/
theorem Close_open (urlErr : String → Option String) (p : prestoClient) (w : World)
    (h : p.closed = false) :
    Close urlErr p w =
      (makeRequest { p with closed := true }
          (NewRequest urlErr "DELETE" p.nextUri none).ptr w).bind fun (r, w1) =>
        match r with
        | .err e => .ret (some e, { p with closed := true }, w1)
        | .ok res =>
          if res.StatusCode ≠ 204 then
            .ret (some ("unexpected http status: " ++ res.Status), { p with closed := true }, w1)
          else
            .ret (none, { p with closed := true }, w1) := by
  simp [Close, h]

/-- Whenever `Close` returns, the session it leaves is closed. -/
theorem Close_sets_closed (urlErr : String → Option String) (p p1 : prestoClient)
    (w w1 : World) (e : Option String) (h : Close urlErr p w = .ret (e, p1, w1)) :
    p1.closed = true := by
  cases hc : p.closed with
  | true =>
    rw [Close_closed urlErr p w hc] at h
    simp only [Run.ret.injEq, Prod.mk.injEq] at h
    rw [← h.2.1]; exact hc
  | false =>
    rw [Close_open urlErr p w hc, Run.bind_eq_ret] at h
    obtain ⟨⟨r, w2⟩, _, h2⟩ := h
    cases r with
    | err e2 =>
      simp only [Run.ret.injEq, Prod.mk.injEq] at h2
      rw [← h2.2.1]
    | ok res =>
      simp only at h2
      split at h2 <;>
      · simp only [Run.ret.injEq, Prod.mk.injEq] at h2
        rw [← h2.2.1]

/-- On an open session `Close` never returns `nil`: `makeRequest` hands back
only responses of status 200, which the test for 204 then rejects. -/
theorem Close_open_never_nil (urlErr : String → Option String) (p p1 : prestoClient)
    (w w1 : World) (e : Option String) (hopen : p.closed = false)
    (h : Close urlErr p w = .ret (e, p1, w1)) : e ≠ none := by
  rw [Close_open urlErr p w hopen, Run.bind_eq_ret] at h
  obtain ⟨⟨r, w2⟩, h1, h2⟩ := h
  cases r with
  | err e2 =>
    simp only [Run.ret.injEq, Prod.mk.injEq] at h2
    rw [← h2.1]; simp
  | ok res =>
    have h200 := makeRequest_ok_status _ _ _ _ _ h1
    simp only [h200] at h2
    rw [if_pos (by decide)] at h2
    simp only [Run.ret.injEq, Prod.mk.injEq] at h2
    rw [← h2.1]; simp

/-! ## What the operations do to the flag `closed` -/

/-- The session that `getVarFromResult` leaves, field by field. -/
theorem foldResult_eq (p : prestoClient) (dat : queryResult) :
    foldResult p dat =
      { p with
        nextUri := dat.NextUri
        datas := p.datas ++ dat.Data
        infoUri := if dat.InfoUri ≠ "" then dat.InfoUri else p.infoUri
        partialCancelUri :=
          if dat.PartialCancelUri ≠ "" then dat.PartialCancelUri else p.partialCancelUri
        state := if dat.Stats.State ≠ "" then dat.Stats.State else p.state
        columns := if p.columns.length = 0 then dat.Columns.map (·.Name) else p.columns } := by
  unfold foldResult
  by_cases h1 : dat.NextUri = "" <;> by_cases h2 : dat.Data = [] <;>
    by_cases h3 : dat.InfoUri = "" <;> by_cases h4 : dat.PartialCancelUri = "" <;>
    by_cases h5 : dat.Stats.State = "" <;> by_cases h6 : p.columns = [] <;>
    simp [*, List.length_pos]

theorem foldResult_closed (p : prestoClient) (dat : queryResult) :
    (foldResult p dat).closed = p.closed := by
  rw [foldResult_eq]

/-- A call of `getPrestoRequest` that returns either reports an error and
leaves the session as it was, or stores an error-free page and nothing else. -/
theorem getPrestoRequest_ret (p p1 : prestoClient) (req : Option Request) (w w1 : World)
    (e : Option String) (h : getPrestoRequest p req w = .ret (e, p1, w1)) :
    (e ≠ none ∧ p1 = p) ∨
    (e = none ∧ ∃ r : queryResult,
      r.Error.FailureInfo.Message = "" ∧ p1 = { p with result := some r }) := by
  rw [getPrestoRequest, Run.bind_eq_ret] at h
  obtain ⟨⟨r, w2⟩, _, h2⟩ := h
  cases r with
  | err e2 =>
    simp only [Run.ret.injEq, Prod.mk.injEq] at h2
    left; rw [← h2.1, ← h2.2.1]; simp
  | ok res =>
    simp only at h2
    cases hr : readResult res with
    | err e2 =>
      rw [hr] at h2
      simp only [Run.ret.injEq, Prod.mk.injEq] at h2
      left; rw [← h2.1, ← h2.2.1]; simp
    | ok result =>
      rw [hr] at h2
      simp only at h2
      by_cases hm : result.Error.FailureInfo.Message = ""
      · rw [if_neg (by simpa using hm)] at h2
        simp only [Run.ret.injEq, Prod.mk.injEq] at h2
        right; exact ⟨h2.1.symm, result, hm, h2.2.1.symm⟩
      · rw [if_pos hm] at h2
        simp only [Run.ret.injEq, Prod.mk.injEq] at h2
        left; rw [← h2.1, ← h2.2.1]; simp

theorem getPrestoRequest_closed (p p1 : prestoClient) (req : Option Request) (w w1 : World)
    (e : Option String) (h : getPrestoRequest p req w = .ret (e, p1, w1)) :
    p1.closed = p.closed := by
  rcases getPrestoRequest_ret p p1 req w w1 e h with ⟨_, h1⟩ | ⟨_, r, _, h1⟩ <;> rw [h1]

theorem getVarFromResult_closed (p p1 : prestoClient) (h : getVarFromResult p = .ret p1) :
    p1.closed = p.closed := by
  unfold getVarFromResult at h
  cases hr : p.result with
  | none => simp [hr] at h
  | some dat =>
    simp only [hr, Run.ret.injEq] at h
    rw [← h, foldResult_closed]

theorem WaitQueryExecLoop_closed (urlErr : String → Option String) (fuel : Nat)
    (p p1 : prestoClient) (w w1 : World) (e : Option String)
    (h : WaitQueryExecLoop urlErr fuel p w = .ret (e, p1, w1)) :
    p1.closed = p.closed := by
  induction fuel generalizing p w with
  | zero => simp [WaitQueryExecLoop] at h
  | succ fuel ih =>
    simp only [WaitQueryExecLoop] at h
    split at h
    · rw [Run.bind_eq_ret] at h
      obtain ⟨⟨e2, p2, w2⟩, h1, h2⟩ := h
      have hc := getPrestoRequest_closed _ _ _ _ _ _ h1
      cases e2 with
      | some e3 =>
        simp only [Run.ret.injEq, Prod.mk.injEq] at h2
        rw [← h2.2.1, hc]
      | none =>
        simp only at h2
        rw [Run.bind_eq_ret] at h2
        obtain ⟨p3, h3, h4⟩ := h2
        rw [ih _ _ h4, getVarFromResult_closed _ _ h3, hc]
    · simp only [Run.ret.injEq, Prod.mk.injEq] at h
      rw [← h.2.1]

theorem WaitQueryExec_closed (urlErr : String → Option String)
    (p p1 : prestoClient) (w w1 : World) (e : Option String)
    (h : WaitQueryExec urlErr p w = .ret (e, p1, w1)) :
    p1.closed = p.closed := by
  rw [WaitQueryExec, Run.bind_eq_ret] at h
  obtain ⟨p2, h1, h2⟩ := h
  rw [Run.bind_eq_ret] at h2
  obtain ⟨⟨e3, p3, w3⟩, h3, h4⟩ := h2
  have hc := WaitQueryExecLoop_closed _ _ _ _ _ _ _ h3
  have hv := getVarFromResult_closed _ _ h1
  cases e3 with
  | some e4 =>
    simp only [Run.ret.injEq, Prod.mk.injEq] at h4
    rw [← h4.2.1, hc, hv]
  | none =>
    simp only at h4
    split at h4 <;>
    · simp only [Run.ret.injEq, Prod.mk.injEq] at h4
      rw [← h4.2.1, hc, hv]

theorem NewQuery_closed (urlErr : String → Option String)
    (p p1 : prestoClient) (request : String) (w w1 : World) (e : Option String)
    (h : NewQuery urlErr p request w = .ret (e, p1, w1)) :
    p1.closed = p.closed := by
  simp only [NewQuery, getFirstQuery] at h
  split at h
  · simp only [Run.ret.injEq, Prod.mk.injEq] at h
    rw [← h.2.1]
  · rw [Run.bind_eq_ret] at h
    obtain ⟨⟨e2, p2, w2⟩, h1, h2⟩ := h
    have hc := getPrestoRequest_closed _ _ _ _ _ _ h1
    cases e2 with
    | some e3 =>
      simp only [Run.ret.injEq, Prod.mk.injEq] at h2
      rw [← h2.2.1, hc]
    | none =>
      simp only [Run.ret.injEq, Prod.mk.injEq] at h2
      rw [← h2.2.1]; exact hc

theorem GetFinishedQuery_session (urlErr : String → Option String)
    (p p1 : prestoClient) (w w1 : World) (r : Res (List (String × Value)))
    (h : GetFinishedQuery urlErr p w = .ret (r, p1, w1)) :
    p1 = p := by
  unfold GetFinishedQuery at h
  cases hr : p.result with
  | none => simp [hr] at h
  | some dat =>
    simp only [hr] at h
    rw [Run.bind_eq_ret] at h
    obtain ⟨⟨r2, w2⟩, _, h2⟩ := h
    cases r2 <;>
    · simp only [Run.ret.injEq, Prod.mk.injEq] at h2
      exact h2.2.1.symm

/-- No operation reopens a closed session. -/
theorem runOp_closed (urlErr : String → Option String) (op : Op)
    (p p1 : prestoClient) (w w1 : World) (hc : p.closed = true)
    (h : runOp urlErr op p w = .ret (p1, w1)) : p1.closed = true := by
  cases op with
  | newQuery request =>
    simp only [runOp, Run.bind_eq_ret] at h
    obtain ⟨⟨e, p2, w2⟩, h1, h2⟩ := h
    simp only [Run.ret.injEq, Prod.mk.injEq] at h2
    rw [← h2.1, NewQuery_closed _ _ _ _ _ _ _ h1, hc]
  | waitQueryExec =>
    simp only [runOp, Run.bind_eq_ret] at h
    obtain ⟨⟨e, p2, w2⟩, h1, h2⟩ := h
    simp only [Run.ret.injEq, Prod.mk.injEq] at h2
    rw [← h2.1, WaitQueryExec_closed _ _ _ _ _ _ h1, hc]
  | getData =>
    simp only [runOp, Run.ret.injEq, Prod.mk.injEq] at h
    rw [← h.1]
    unfold GetData
    split <;> exact hc
  | getFinishedQuery =>
    simp only [runOp, Run.bind_eq_ret] at h
    obtain ⟨⟨e, p2, w2⟩, h1, h2⟩ := h
    simp only [Run.ret.injEq, Prod.mk.injEq] at h2
    rw [← h2.1, GetFinishedQuery_session _ _ _ _ _ _ h1, hc]
  | columns =>
    simp only [runOp, Columns, Run.ret.injEq, Prod.mk.injEq] at h
    rw [← h.1]; exact hc
  | close =>
    simp only [runOp, Run.bind_eq_ret] at h
    obtain ⟨⟨e, p2, w2⟩, h1, h2⟩ := h
    simp only [Run.ret.injEq, Prod.mk.injEq] at h2
    rw [← h2.1]; exact Close_sets_closed _ _ _ _ _ _ h1

theorem runOps_closed (urlErr : String → Option String) (ops : List Op)
    (p p1 : prestoClient) (w w1 : World) (hc : p.closed = true)
    (h : runOps urlErr ops p w = .ret (p1, w1)) : p1.closed = true := by
  induction ops generalizing p w with
  | nil =>
    simp only [runOps, Run.ret.injEq, Prod.mk.injEq] at h
    rw [← h.1]; exact hc
  | cons op ops ih =>
    simp only [runOps, Run.bind_eq_ret] at h
    obtain ⟨⟨p2, w2⟩, h1, h2⟩ := h
    exact ih _ _ (runOp_closed _ _ _ _ _ _ hc h1) h2

/-! ## Claims about `Close` -/

/-- C3, at the failing input: on a session that is not closed, when the
server answers the DELETE with status 204, `Close` sends that one DELETE to
`nextUri` and returns the error of `makeRequest` naming the 204, not `nil`. -/
theorem C3_close_rejects_204 (urlErr : String → Option String) (p : prestoClient)
    (res : Response) (rest : List Answer) (tr : List Event)
    (hopen : p.closed = false) (hurl : urlErr p.nextUri = none)
    (h204 : res.StatusCode = 204) :
    Close urlErr p ⟨.resp res :: rest, tr⟩ =
      .ret (some ("unexpected http status: " ++ res.Status), { p with closed := true },
        ⟨rest, tr ++ [.sent (addHeaders p ⟨"DELETE", p.nextUri, none, []⟩)]⟩) := by
  rw [Close_open urlErr p _ hopen]
  simp only [NewRequest, hurl, Res.ptr]
  rw [makeRequest_first _ _ (.resp res) rest tr (by
    intro r hr; cases hr; omega)]
  simp [h204, addHeaders]

/-- C3 on a fresh session and a "204 No Content" answer. -/
theorem C3_close_rejects_204_witness :
    Close anyUrl freshClient ⟨[.resp noContentResponse], []⟩ =
      .ret (some "unexpected http status: 204 No Content", { freshClient with closed := true },
        ⟨[], [.sent (addHeaders freshClient ⟨"DELETE", "", none, []⟩)]⟩) :=
  C3_close_rejects_204 anyUrl freshClient noContentResponse [] [] rfl rfl rfl

/-- C4 as stated fails: a session closed by `Close` still sends the POST of a
later `NewQuery`. -/
theorem C4_closed_session_still_posts :
    Close anyUrl freshClient ⟨[.resp noContentResponse, .resp (pageResponse finishedPage)], []⟩ =
      .ret (some "unexpected http status: 204 No Content", { freshClient with closed := true },
        ⟨[.resp (pageResponse finishedPage)],
         [.sent (addHeaders freshClient ⟨"DELETE", "", none, []⟩)]⟩) ∧
    NewQuery anyUrl { freshClient with closed := true } "SELECT 1"
        ⟨[.resp (pageResponse finishedPage)],
         [.sent (addHeaders freshClient ⟨"DELETE", "", none, []⟩)]⟩ =
      .ret (none,
        { freshClient with
          closed := true, request := "SELECT 1", result := some finishedPage, state := "RUNNING" },
        ⟨[], [.sent (addHeaders freshClient ⟨"DELETE", "", none, []⟩),
              .sent (addHeaders freshClient
                ⟨"POST", "http://h:8080/v1/statement", some "SELECT 1", []⟩)]⟩) := by
  constructor <;> decide

/-- C4, amended: once a session is closed it stays closed through every
sequence of later operations (`NewQuery`, `WaitQueryExec`, `GetData`,
`GetFinishedQuery`, `Columns`, `Close`) and every transport script, and a
`Close` after them returns `nil` without sending a request or changing the
session. -/
theorem C4_close_after_close_sends_nothing (urlErr : String → Option String)
    (ops : List Op) (p p1 : prestoClient) (w w1 : World) (hc : p.closed = true)
    (h : runOps urlErr ops p w = .ret (p1, w1)) :
    p1.closed = true ∧ Close urlErr p1 w1 = .ret (none, p1, w1) :=
  ⟨runOps_closed urlErr ops p p1 w w1 hc h,
   Close_closed urlErr p1 w1 (runOps_closed urlErr ops p p1 w w1 hc h)⟩

/-- C4 amended, on a closed session that runs a query to its end and is then
closed again: the script is used up by the query and the last `Close` adds
nothing to the trace. -/
theorem C4_close_after_close_sends_nothing_witness :
    ({ freshClient with closed := true } : prestoClient).closed = true ∧
    runOps anyUrl [.newQuery "SELECT 1", .waitQueryExec, .getData]
        { freshClient with closed := true } ⟨[.resp (pageResponse finishedPage)], []⟩ =
      .ret ({ freshClient with
              closed := true, request := "SELECT 1", result := some finishedPage,
              state := "FINISHED", datas := ["[1]"], columns := ["n"],
              infoUri := "http://h:8080/ui/q1" },
            ⟨[], [.sent (addHeaders freshClient
                ⟨"POST", "http://h:8080/v1/statement", some "SELECT 1", []⟩)]⟩) ∧
    Close anyUrl
        { freshClient with
          closed := true, request := "SELECT 1", result := some finishedPage,
          state := "FINISHED", datas := ["[1]"], columns := ["n"],
          infoUri := "http://h:8080/ui/q1" }
        ⟨[], [.sent (addHeaders freshClient
                ⟨"POST", "http://h:8080/v1/statement", some "SELECT 1", []⟩)]⟩ =
      .ret (none,
        { freshClient with
          closed := true, request := "SELECT 1", result := some finishedPage,
          state := "FINISHED", datas := ["[1]"], columns := ["n"],
          infoUri := "http://h:8080/ui/q1" },
        ⟨[], [.sent (addHeaders freshClient
                ⟨"POST", "http://h:8080/v1/statement", some "SELECT 1", []⟩)]⟩) :=
  ⟨rfl, by decide,
   (C4_close_after_close_sends_nothing anyUrl [.newQuery "SELECT 1", .waitQueryExec, .getData]
      { freshClient with closed := true } _ ⟨[.resp (pageResponse finishedPage)], []⟩ _ rfl
      (by decide)).2⟩

/-- C5: whenever a first `Close` returns, with or without an error, a second
`Close` returns `nil`, sends nothing and leaves the session and the world
as they were; so when the first answer of the server is not a 503, the two
calls together have sent exactly one request, the DELETE to `nextUri` of the
open session (on a session that an earlier `Close` had closed, the guard
makes both calls no-ops). -/
theorem C5_second_close_is_noop (urlErr : String → Option String)
    (p p1 : prestoClient) (w w1 : World) (e : Option String)
    (h : Close urlErr p w = .ret (e, p1, w1)) :
    Close urlErr p1 w1 = .ret (none, p1, w1) ∧
    (∀ (a : Answer) (rest : List Answer), w.answers = a :: rest →
      (∀ res, a = .resp res → res.StatusCode ≠ 503) →
      w1.trace = w.trace ++
        (if p.closed then []
         else [.sent (addHeaders p ⟨"DELETE", p.nextUri, none, []⟩)])) := by
  refine ⟨Close_closed urlErr p1 w1 (Close_sets_closed urlErr p p1 w w1 e h), ?_⟩
  intro a rest hw ha
  cases hopen : p.closed with
  | true =>
    rw [Close_closed urlErr p w hopen] at h
    simp only [Run.ret.injEq, Prod.mk.injEq] at h
    rw [← h.2.2]; simp
  | false =>
    rw [Close_open urlErr p w hopen, Run.bind_eq_ret] at h
    obtain ⟨⟨r, w2⟩, h1, h2⟩ := h
    have hw2 : w1 = w2 := by
      cases r with
      | err e2 =>
        simp only [Run.ret.injEq, Prod.mk.injEq] at h2
        exact h2.2.2.symm
      | ok res =>
        simp only at h2
        split at h2 <;>
        · simp only [Run.ret.injEq, Prod.mk.injEq] at h2
          exact h2.2.2.symm
    subst hw2
    cases hu : urlErr p.nextUri with
    | some e2 => simp [NewRequest, hu, Res.ptr, makeRequest] at h1
    | none =>
      have hw0 : w = ⟨a :: rest, w.trace⟩ := by
        cases w; simp_all
      simp only [NewRequest, hu, Res.ptr] at h1
      rw [hw0, makeRequest_first _ _ a rest w.trace ha] at h1
      simp only [Run.ret.injEq, Prod.mk.injEq] at h1
      rw [← h1.2]
      simp [addHeaders]

/-- C5 on a fresh session whose DELETE is answered with "204 No Content":
the second `Close` is a no-op and the trace holds the one DELETE. -/
theorem C5_second_close_is_noop_witness :
    Close anyUrl { freshClient with closed := true }
        ⟨[], [.sent (addHeaders freshClient ⟨"DELETE", "", none, []⟩)]⟩ =
      .ret (none, { freshClient with closed := true },
        ⟨[], [.sent (addHeaders freshClient ⟨"DELETE", "", none, []⟩)]⟩) ∧
    (⟨[], [.sent (addHeaders freshClient ⟨"DELETE", "", none, []⟩)]⟩ : World).trace =
      [] ++ [.sent (addHeaders freshClient ⟨"DELETE", freshClient.nextUri, none, []⟩)] :=
  ⟨(C5_second_close_is_noop anyUrl freshClient { freshClient with closed := true }
      ⟨[.resp noContentResponse], []⟩
      ⟨[], [.sent (addHeaders freshClient ⟨"DELETE", "", none, []⟩)]⟩
      (some "unexpected http status: 204 No Content") (by decide)).1,
   (C5_second_close_is_noop anyUrl freshClient { freshClient with closed := true }
      ⟨[.resp noContentResponse], []⟩
      ⟨[], [.sent (addHeaders freshClient ⟨"DELETE", "", none, []⟩)]⟩
      (some "unexpected http status: 204 No Content") (by decide)).2
      (.resp noContentResponse) [] rfl (by intro res hres; cases hres; decide)⟩

/-! ## The fuel of `WaitQueryExec` is enough -/

theorem Run.bind_ne_outOfFuel {α β : Type} (r : Run α) (f : α → Run β)
    (hr : r ≠ .outOfFuel) (hf : ∀ a, r = .ret a → f a ≠ .outOfFuel) :
    r.bind f ≠ .outOfFuel := by
  cases r with
  | ret a => exact hf a rfl
  | panic why => simp [Run.bind]
  | blocked => simp [Run.bind]
  | outOfFuel => exact absurd rfl hr

theorem makeRequestLoop_ne_outOfFuel (req : Request) (answers : List Answer) (retry : Nat)
    (tr : List Event) : makeRequestLoop req retry answers tr ≠ .outOfFuel := by
  induction answers generalizing retry tr with
  | nil => simp [makeRequestLoop]
  | cons a rest ih =>
    cases a with
    | fail e => simp [makeRequestLoop]
    | resp r =>
      simp only [makeRequestLoop]
      split
      · simp
      · split
        · simp
        · exact ih _ _

/-- Every call of the loop of `makeRequest` that returns has taken at least
one answer from the script. -/
theorem makeRequestLoop_consumes (req : Request) (answers : List Answer) (retry : Nat)
    (tr : List Event) (r : Res Response) (w : World)
    (h : makeRequestLoop req retry answers tr = .ret (r, w)) :
    w.answers.length < answers.length := by
  induction answers generalizing retry tr with
  | nil => simp [makeRequestLoop] at h
  | cons a rest ih =>
    cases a with
    | fail e =>
      simp only [makeRequestLoop, Run.ret.injEq, Prod.mk.injEq] at h
      rw [← h.2]; simp
    | resp res =>
      simp only [makeRequestLoop] at h
      split at h
      · simp only [Run.ret.injEq, Prod.mk.injEq] at h
        rw [← h.2]; simp
      · split at h
        · simp only [Run.ret.injEq, Prod.mk.injEq] at h
          rw [← h.2]; simp
        · have := ih _ _ h
          simp only [List.length_cons]; omega

theorem getPrestoRequest_ne_outOfFuel (p : prestoClient) (req : Option Request) (w : World) :
    getPrestoRequest p req w ≠ .outOfFuel := by
  unfold getPrestoRequest
  apply Run.bind_ne_outOfFuel
  · cases req with
    | none => simp [makeRequest]
    | some r => exact makeRequestLoop_ne_outOfFuel _ _ _ _
  · rintro ⟨r, w1⟩ _
    cases r with
    | err e => simp
    | ok res =>
      simp only
      split
      · simp
      · split <;> simp

theorem getPrestoRequest_consumes (p p1 : prestoClient) (req : Option Request) (w w1 : World)
    (e : Option String) (h : getPrestoRequest p req w = .ret (e, p1, w1)) :
    w1.answers.length < w.answers.length := by
  rw [getPrestoRequest, Run.bind_eq_ret] at h
  obtain ⟨⟨r, w2⟩, h1, h2⟩ := h
  have hlt : w2.answers.length < w.answers.length := by
    cases req with
    | none => simp [makeRequest] at h1
    | some rq => exact makeRequestLoop_consumes _ _ _ _ _ _ h1
  have hw : w1 = w2 := by
    cases r with
    | err e2 =>
      simp only [Run.ret.injEq, Prod.mk.injEq] at h2
      exact h2.2.2.symm
    | ok res =>
      simp only at h2
      split at h2
      · simp only [Run.ret.injEq, Prod.mk.injEq] at h2
        exact h2.2.2.symm
      · split at h2 <;>
        · simp only [Run.ret.injEq, Prod.mk.injEq] at h2
          exact h2.2.2.symm
  rw [hw]; exact hlt

/-- With more fuel than answers left in the script the loop of
`WaitQueryExec` never stops for want of fuel. -/
theorem WaitQueryExecLoop_ne_outOfFuel (urlErr : String → Option String) (fuel : Nat)
    (p : prestoClient) (w : World) (h : w.answers.length < fuel) :
    WaitQueryExecLoop urlErr fuel p w ≠ .outOfFuel := by
  induction fuel generalizing p w with
  | zero => omega
  | succ fuel ih =>
    simp only [WaitQueryExecLoop]
    split
    · apply Run.bind_ne_outOfFuel
      · exact getPrestoRequest_ne_outOfFuel _ _ _
      · rintro ⟨e, p1, w1⟩ hret
        have hlt := getPrestoRequest_consumes _ _ _ _ _ _ hret
        cases e with
        | some e2 => simp
        | none =>
          simp only
          apply Run.bind_ne_outOfFuel
          · unfold getVarFromResult
            split <;> simp
          · intro p2 _
            exact ih _ _ (by simp only at hlt; omega)
    · simp

/-- The fuel that `WaitQueryExec` gives its loop is enough on every session
and script: the call returns, faults, or waits at the end of the script. -/
theorem WaitQueryExec_ne_outOfFuel (urlErr : String → Option String)
    (p : prestoClient) (w : World) : WaitQueryExec urlErr p w ≠ .outOfFuel := by
  unfold WaitQueryExec
  apply Run.bind_ne_outOfFuel
  · unfold getVarFromResult
    split <;> simp
  · intro p1 _
    apply Run.bind_ne_outOfFuel
    · exact WaitQueryExecLoop_ne_outOfFuel urlErr _ _ _ (by omega)
    · rintro ⟨e, p2, w2⟩ _
      cases e with
      | some e2 => simp
      | none =>
        simp only
        split <;> simp

/-! ## Folding pages -/

theorem storeAndFold_eq (p : prestoClient) (pg : queryResult) :
    storeAndFold p pg = .ret (foldResult { p with result := some pg } pg) := rfl

theorem foldPages_eq (p : prestoClient) (pages : List queryResult) :
    foldPages p pages = .ret (foldAll p pages) := by
  induction pages generalizing p with
  | nil => rfl
  | cons pg pages ih => simp [foldPages, storeAndFold_eq, ih, foldAll]

theorem foldAll_append (p : prestoClient) (xs ys : List queryResult) :
    foldAll p (xs ++ ys) = foldAll (foldAll p xs) ys := by
  simp [foldAll]

theorem foldAll_cons (p : prestoClient) (pg : queryResult) (pages : List queryResult) :
    foldAll p (pg :: pages) = foldAll (foldResult { p with result := some pg } pg) pages := rfl

theorem foldAll_datas (p : prestoClient) (pages : List queryResult) :
    (foldAll p pages).datas = p.datas ++ (pages.map (·.Data)).flatten := by
  induction pages generalizing p with
  | nil => simp [foldAll]
  | cons pg pages ih => rw [foldAll_cons, ih, foldResult_eq]; simp

theorem foldAll_columns_of_nonempty (p : prestoClient) (pages : List queryResult)
    (h : p.columns ≠ []) : (foldAll p pages).columns = p.columns := by
  induction pages generalizing p with
  | nil => rfl
  | cons pg pages ih =>
    have h1 : (foldResult { p with result := some pg } pg).columns = p.columns := by
      rw [foldResult_eq]; simp [h]
    rw [foldAll_cons, ih _ (by rw [h1]; exact h), h1]

theorem foldAll_columns_of_empty (p : prestoClient) (pages : List queryResult)
    (h : p.columns = []) (hpages : ∀ q ∈ pages, q.Columns = []) :
    (foldAll p pages).columns = [] := by
  induction pages generalizing p with
  | nil => exact h
  | cons pg pages ih =>
    have h1 : (foldResult { p with result := some pg } pg).columns = [] := by
      rw [foldResult_eq]; simp [h, hpages pg (by simp)]
    rw [foldAll_cons, ih _ h1 (fun q hq => hpages q (by simp [hq]))]

/-! ## Claim about the column names -/

/-- C6: when pages are stored and folded by `getVarFromResult` into a session
whose `columns` is empty, and `pg` is the first of them with a non-empty
`Columns`, then `columns` ends as the names of `pg.Columns` in their order,
whatever the pages after `pg` carry. -/
theorem C6_columns_from_first_page_with_columns (p : prestoClient)
    (before : List queryResult) (pg : queryResult) (after : List queryResult)
    (hp : p.columns = []) (hbefore : ∀ q ∈ before, q.Columns = [])
    (hpg : pg.Columns ≠ []) :
    ∃ p1 : prestoClient,
      foldPages p (before ++ pg :: after) = .ret p1 ∧
      p1.columns = pg.Columns.map (·.Name) := by
  refine ⟨_, foldPages_eq _ _, ?_⟩
  have h0 := foldAll_columns_of_empty p before hp hbefore
  have h1 : (foldResult { foldAll p before with result := some pg } pg).columns =
      pg.Columns.map (·.Name) := by
    rw [foldResult_eq]; simp [h0]
  rw [foldAll_append, foldAll_cons, foldAll_columns_of_nonempty _ _ (by rw [h1]; simpa using hpg),
    h1]

/-- C6 on three pages: none, then columns `a, b`, then a column `c`. -/
theorem C6_columns_from_first_page_with_columns_witness :
    ∃ p1 : prestoClient,
      foldPages freshClient
        ([⟨"q1", "", "u1", "", [], [], ⟨0, ⟨""⟩⟩, ⟨"QUEUED", false, 0, 0⟩⟩] ++
          ⟨"q1", "", "u2", "", ["[1,2]"], [⟨"a"⟩, ⟨"b"⟩], ⟨0, ⟨""⟩⟩, ⟨"RUNNING", true, 0, 1⟩⟩ ::
          [⟨"q1", "", "", "", ["[3,4]"], [⟨"c"⟩], ⟨0, ⟨""⟩⟩, ⟨"FINISHED", true, 1, 1⟩⟩]) =
        .ret p1 ∧
      p1.columns = ([⟨"a"⟩, ⟨"b"⟩] : List Column).map (·.Name) :=
  C6_columns_from_first_page_with_columns freshClient
    [⟨"q1", "", "u1", "", [], [], ⟨0, ⟨""⟩⟩, ⟨"QUEUED", false, 0, 0⟩⟩]
    ⟨"q1", "", "u2", "", ["[1,2]"], [⟨"a"⟩, ⟨"b"⟩], ⟨0, ⟨""⟩⟩, ⟨"RUNNING", true, 0, 1⟩⟩
    [⟨"q1", "", "", "", ["[3,4]"], [⟨"c"⟩], ⟨0, ⟨""⟩⟩, ⟨"FINISHED", true, 1, 1⟩⟩]
    rfl (by decide) (by decide)

/-! ## The polling loop of `WaitQueryExec` -/

theorem getPrestoRequest_delivers (p : prestoClient) (req : Request) (a : Answer)
    (pg : queryResult) (rest : List Answer) (tr : List Event)
    (hd : Delivers a pg) (hm : pg.Error.FailureInfo.Message = "") :
    getPrestoRequest p (some req) ⟨a :: rest, tr⟩ =
      .ret (none, { p with result := some pg }, ⟨rest, tr ++ [.sent (addHeaders p req)]⟩) := by
  obtain ⟨res, rfl, h200, hread, hpage⟩ := hd
  rw [getPrestoRequest, makeRequest_first _ _ _ _ _ (by intro r hr; cases hr; omega)]
  simp [h200, readResult, hread, hpage, hm]

theorem getPrestoRequest_failed (p : prestoClient) (req : Request) (a : Answer)
    (pg : queryResult) (rest : List Answer) (tr : List Event)
    (hd : Delivers a pg) (hm : pg.Error.FailureInfo.Message ≠ "") :
    getPrestoRequest p (some req) ⟨a :: rest, tr⟩ =
      .ret (some ("query failed: " ++ pg.Error.FailureInfo.Message), p,
        ⟨rest, tr ++ [.sent (addHeaders p req)]⟩) := by
  obtain ⟨res, rfl, h200, hread, hpage⟩ := hd
  rw [getPrestoRequest, makeRequest_first _ _ _ _ _ (by intro r hr; cases hr; omega)]
  simp [h200, readResult, hread, hpage, hm]

theorem addHeaders_foldResult (p : prestoClient) (dat : queryResult) (req : Request) :
    addHeaders (foldResult p dat) req = addHeaders p req := by
  rw [foldResult_eq]; rfl

theorem pollTrace_congr (p q : prestoClient) (h : ∀ req, addHeaders q req = addHeaders p req)
    (uri : String) (pages : List queryResult) :
    pollTrace q uri pages = pollTrace p uri pages := by
  induction pages generalizing uri with
  | nil => rfl
  | cons pg pages ih => simp only [pollTrace, h, ih]

theorem pollTrace_foldResult (p : prestoClient) (pg dat : queryResult) (uri : String)
    (pages : List queryResult) :
    pollTrace (foldResult { p with result := some pg } dat) uri pages = pollTrace p uri pages :=
  pollTrace_congr _ _ (fun req => by rw [addHeaders_foldResult]; rfl) uri pages

theorem foldResult_nextUri (p : prestoClient) (dat : queryResult) :
    (foldResult p dat).nextUri = dat.NextUri := by
  rw [foldResult_eq]

/-- One round of the loop that polls an error-free page. -/
theorem WaitQueryExecLoop_poll (urlErr : String → Option String) (fuel : Nat)
    (p : prestoClient) (a : Answer) (pg : queryResult) (rest : List Answer) (tr : List Event)
    (hne : p.nextUri ≠ "") (hurl : urlErr p.nextUri = none)
    (hd : Delivers a pg) (hm : pg.Error.FailureInfo.Message = "") :
    WaitQueryExecLoop urlErr (fuel + 1) p ⟨a :: rest, tr⟩ =
      WaitQueryExecLoop urlErr fuel (foldResult { p with result := some pg } pg)
        ⟨rest, tr ++ [.slept initialRetry, .sent (addHeaders p ⟨"GET", p.nextUri, none, []⟩)]⟩ := by
  rw [WaitQueryExecLoop, if_pos hne]
  simp only [getNextQuery, NewRequest, hurl, Res.ptr]
  rw [getPrestoRequest_delivers _ _ _ _ _ _ hd hm]
  simp [getVarFromResult]

/-- One round of the loop that polls a page carrying a failure message. -/
theorem WaitQueryExecLoop_failed (urlErr : String → Option String) (fuel : Nat)
    (p : prestoClient) (a : Answer) (pg : queryResult) (rest : List Answer) (tr : List Event)
    (hne : p.nextUri ≠ "") (hurl : urlErr p.nextUri = none)
    (hd : Delivers a pg) (hm : pg.Error.FailureInfo.Message ≠ "") :
    WaitQueryExecLoop urlErr (fuel + 1) p ⟨a :: rest, tr⟩ =
      .ret (some ("query failed: " ++ pg.Error.FailureInfo.Message), p,
        ⟨rest, tr ++ [.slept initialRetry, .sent (addHeaders p ⟨"GET", p.nextUri, none, []⟩)]⟩) := by
  rw [WaitQueryExecLoop, if_pos hne]
  simp only [getNextQuery, NewRequest, hurl, Res.ptr]
  rw [getPrestoRequest_failed _ _ _ _ _ _ hd hm]
  simp

/-- The loop ends at once on an empty continuation. -/
theorem WaitQueryExecLoop_done (urlErr : String → Option String) (fuel : Nat)
    (p : prestoClient) (w : World) (h : p.nextUri = "") :
    WaitQueryExecLoop urlErr (fuel + 1) p w = .ret (none, p, w) := by
  rw [WaitQueryExecLoop, if_neg (by simpa using h)]

/-- The rounds of the loop over a run of error-free pages. -/
theorem WaitQueryExecLoop_pages (urlErr : String → Option String)
    (answers : List Answer) (pages : List queryResult)
    (hd : List.Forall₂ Delivers answers pages) (fuel : Nat) (p : prestoClient)
    (rest : List Answer) (tr : List Event) (hpolls : Polls urlErr p.nextUri pages) :
    WaitQueryExecLoop urlErr (fuel + pages.length) p ⟨answers ++ rest, tr⟩ =
      WaitQueryExecLoop urlErr fuel (foldAll p pages)
        ⟨rest, tr ++ pollTrace p p.nextUri pages⟩ := by
  induction hd generalizing p tr with
  | nil => simp [foldAll, pollTrace]
  | @cons a pg answers pages hd1 _ ih =>
    obtain ⟨hne, hurl, hm, hrest⟩ := hpolls
    rw [List.length_cons, ← Nat.add_assoc, List.cons_append,
      WaitQueryExecLoop_poll urlErr _ p a pg _ tr hne hurl hd1 hm,
      ih _ _ (by rw [foldResult_nextUri]; exact hrest)]
    simp [foldAll_cons, pollTrace, pollTrace_foldResult, foldResult_nextUri]

/-- What `WaitQueryExec` does when the stored page is `first` and the polls
are answered by the error-free pages `polled`, the last page of all having an
empty continuation. -/
theorem WaitQueryExec_pages (urlErr : String → Option String) (p : prestoClient)
    (first : queryResult) (polled : List queryResult) (answers extra : List Answer)
    (tr : List Event) (hres : p.result = some first)
    (hd : List.Forall₂ Delivers answers polled)
    (hpolls : Polls urlErr first.NextUri polled)
    (hend : (foldAll (foldResult p first) polled).nextUri = "") :
    WaitQueryExec urlErr p ⟨answers ++ extra, tr⟩ =
      .ret (if (foldAll (foldResult p first) polled).state ≠ "FINISHED" then
              some "Incoherent State at end of query"
            else none,
            foldAll (foldResult p first) polled,
            ⟨extra, tr ++ pollTrace p first.NextUri polled⟩) := by
  have hlen : (answers ++ extra).length + 1 = (extra.length + 1) + polled.length := by
    rw [List.length_append, hd.length_eq]; omega
  simp only [WaitQueryExec, getVarFromResult, hres, Run.bind_ret]
  rw [hlen, WaitQueryExecLoop_pages urlErr answers polled hd _ _ _ _
    (by rw [foldResult_nextUri]; exact hpolls),
    WaitQueryExecLoop_done urlErr _ _ _ hend]
  simp only [Run.bind_ret, foldResult_nextUri]
  rw [pollTrace_congr p _ (fun req => addHeaders_foldResult p first req)]
  split <;> rfl

/-! ## Page sequences -/

/-- A sequence `first :: polled` that ends in `last`: either it is `last`
alone, or `polled` ends in `last`. -/
theorem split_cases (first last : queryResult) (polled init : List queryResult)
    (h : first :: polled = init ++ [last]) :
    (polled = [] ∧ init = [] ∧ first = last) ∨
    (∃ qs, polled = qs ++ [last] ∧ init = first :: qs) := by
  cases init with
  | nil =>
    simp only [List.nil_append, List.cons.injEq] at h
    exact Or.inl ⟨h.2, rfl, h.1⟩
  | cons q qs =>
    simp only [List.cons_append, List.cons.injEq] at h
    exact Or.inr ⟨qs, h.2, by rw [h.1]⟩

theorem polls_of_forall (urlErr : String → Option String) (pages : List queryResult)
    (uri : String) (hne : uri ≠ "") (hurl : urlErr uri = none)
    (h : ∀ pg ∈ pages,
      pg.Error.FailureInfo.Message = "" ∧ pg.NextUri ≠ "" ∧ urlErr pg.NextUri = none) :
    Polls urlErr uri pages := by
  induction pages generalizing uri with
  | nil => trivial
  | cons pg pages ih =>
    obtain ⟨hm, hn, hu⟩ := h pg (by simp)
    exact ⟨hne, hurl, hm, ih _ hn hu (fun q hq => h q (by simp [hq]))⟩

theorem polls_concat (urlErr : String → Option String) (pages : List queryResult)
    (last : queryResult) (uri : String) (hne : uri ≠ "") (hurl : urlErr uri = none)
    (h : ∀ pg ∈ pages,
      pg.Error.FailureInfo.Message = "" ∧ pg.NextUri ≠ "" ∧ urlErr pg.NextUri = none)
    (hlast : last.Error.FailureInfo.Message = "") :
    Polls urlErr uri (pages ++ [last]) := by
  induction pages generalizing uri with
  | nil => exact ⟨hne, hurl, hlast, trivial⟩
  | cons pg pages ih =>
    obtain ⟨hm, hn, hu⟩ := h pg (by simp)
    exact ⟨hne, hurl, hm, ih _ hn hu (fun q hq => h q (by simp [hq]))⟩

/-- The chain of polls behind a page sequence `first :: polled = init ++ [last]`
in which every page of `init` has a continuation that parses. -/
theorem polls_of_split (urlErr : String → Option String) (first last : queryResult)
    (polled init : List queryResult) (hsplit : first :: polled = init ++ [last])
    (hok : ∀ pg ∈ polled, pg.Error.FailureInfo.Message = "")
    (hinit : ∀ pg ∈ init, pg.NextUri ≠ "" ∧ urlErr pg.NextUri = none) :
    Polls urlErr first.NextUri polled := by
  rcases split_cases first last polled init hsplit with ⟨h1, _, _⟩ | ⟨qs, h1, h2⟩
  · rw [h1]; trivial
  · subst h1 h2
    obtain ⟨hn, hu⟩ := hinit first (by simp)
    exact polls_concat urlErr qs last _ hn hu
      (fun q hq => ⟨hok q (by simp [hq]), hinit q (by simp [hq])⟩) (hok last (by simp))

theorem foldAll_concat (p : prestoClient) (qs : List queryResult) (last : queryResult) :
    foldAll p (qs ++ [last]) = foldResult { foldAll p qs with result := some last } last := by
  rw [foldAll_append]; rfl

theorem foldAll_nextUri_of_split (p : prestoClient) (first last : queryResult)
    (polled init : List queryResult) (hsplit : first :: polled = init ++ [last])
    (hp : p.nextUri = first.NextUri) : (foldAll p polled).nextUri = last.NextUri := by
  rcases split_cases first last polled init hsplit with ⟨h1, _, h3⟩ | ⟨qs, h1, _⟩
  · rw [h1, ← h3]; exact hp
  · rw [h1, foldAll_concat, foldResult_nextUri]

theorem foldAll_state_of_split (p : prestoClient) (first last : queryResult)
    (polled init : List queryResult) (hsplit : first :: polled = init ++ [last])
    (hp : p.state = first.Stats.State) (hs : last.Stats.State ≠ "") :
    (foldAll p polled).state = last.Stats.State := by
  rcases split_cases first last polled init hsplit with ⟨h1, _, h3⟩ | ⟨qs, h1, _⟩
  · rw [h1, ← h3]; exact hp
  · rw [h1, foldAll_concat, foldResult_eq]; simp [hs]

/-- The continuation after a run of pages is that of the last page, or the
one before the run when the run is empty. -/
theorem foldAll_nextUri_mem (p : prestoClient) (pages : List queryResult) :
    (foldAll p pages).nextUri = p.nextUri ∨
    ∃ pg ∈ pages, (foldAll p pages).nextUri = pg.NextUri := by
  rcases List.eq_nil_or_concat pages with h | ⟨qs, q, h⟩
  · left; rw [h]; rfl
  · right
    refine ⟨q, by rw [h]; simp, ?_⟩
    rw [h, List.concat_eq_append, foldAll_concat, foldResult_nextUri]

/-- `NewQuery` on an answer that delivers an error-free page. -/
theorem NewQuery_delivers (urlErr : String → Option String) (p : prestoClient)
    (request : String) (a : Answer) (pg : queryResult) (rest : List Answer) (tr : List Event)
    (hurl : urlErr p.url = none) (hd : Delivers a pg)
    (hm : pg.Error.FailureInfo.Message = "") :
    NewQuery urlErr p request ⟨a :: rest, tr⟩ =
      .ret (none,
        { p with
          datas := [], request := request, nextUri := "", result := some pg, state := "RUNNING" },
        ⟨rest, tr ++ [.sent (addHeaders p ⟨"POST", p.url, some request, []⟩)]⟩) := by
  simp only [NewQuery, getFirstQuery, NewRequest, hurl]
  rw [getPrestoRequest_delivers _ _ _ _ _ _ hd hm]
  rfl

/-- `NewQuery` on an answer that delivers a page with a failure message. -/
theorem NewQuery_failed (urlErr : String → Option String) (p : prestoClient)
    (request : String) (a : Answer) (pg : queryResult) (rest : List Answer) (tr : List Event)
    (hurl : urlErr p.url = none) (hd : Delivers a pg)
    (hm : pg.Error.FailureInfo.Message ≠ "") :
    NewQuery urlErr p request ⟨a :: rest, tr⟩ =
      .ret (some ("query failed: " ++ pg.Error.FailureInfo.Message),
        { p with datas := [], request := request, nextUri := "" },
        ⟨rest, tr ++ [.sent (addHeaders p ⟨"POST", p.url, some request, []⟩)]⟩) := by
  simp only [NewQuery, getFirstQuery, NewRequest, hurl]
  rw [getPrestoRequest_failed _ _ _ _ _ _ hd hm]
  rfl

theorem delivers_pageResponse (pg : queryResult) : Delivers (.resp (pageResponse pg)) pg :=
  ⟨_, rfl, rfl, rfl, rfl⟩

/-! ## Claims about `NewQuery` followed by `WaitQueryExec` -/

/-- C1: let `first :: polled` be error-free pages, `first` answering the POST
of `NewQuery` and `polled` the polls of `WaitQueryExec`, with a non-empty
`nextUri` on every page but the last and an empty one on the last. Then
`NewQuery` succeeds, `WaitQueryExec` returns, and `datas` ends as the rows
of the pages in page order, whatever `datas` held before. -/
theorem C1_rows_are_pages_in_order (urlErr : String → Option String) (p : prestoClient)
    (request : String) (first last : queryResult) (polled init : List queryResult)
    (a : Answer) (answers extra : List Answer) (tr : List Event)
    (hurl : urlErr p.url = none)
    (hsplit : first :: polled = init ++ [last])
    (hfirst : Delivers a first) (hpolled : List.Forall₂ Delivers answers polled)
    (hok : ∀ pg ∈ first :: polled, pg.Error.FailureInfo.Message = "")
    (hinit : ∀ pg ∈ init, pg.NextUri ≠ "" ∧ urlErr pg.NextUri = none)
    (hlast : last.NextUri = "") :
    ∃ (p1 : prestoClient) (w1 : World) (e : Option String) (p2 : prestoClient) (w2 : World),
      NewQuery urlErr p request ⟨a :: (answers ++ extra), tr⟩ = .ret (none, p1, w1) ∧
      WaitQueryExec urlErr p1 w1 = .ret (e, p2, w2) ∧
      p2.datas = ((first :: polled).map (·.Data)).flatten ∧
      w2.answers = extra := by
  have hnew := NewQuery_delivers urlErr p request a first (answers ++ extra) tr hurl hfirst
    (hok first (by simp))
  have hpolls := polls_of_split urlErr first last polled init hsplit
    (fun pg hpg => hok pg (by simp [hpg])) hinit
  refine ⟨_, _, _, _, _, hnew,
    WaitQueryExec_pages urlErr _ first polled answers extra _ rfl hpolled hpolls ?_, ?_, rfl⟩
  · rw [foldAll_nextUri_of_split _ first last polled init hsplit (foldResult_nextUri _ _), hlast]
  · rw [foldAll_datas, foldResult_eq]; simp

/-- C1 on three pages, in a session that held a stale row. -/
theorem C1_rows_are_pages_in_order_witness :
    ∃ (p1 : prestoClient) (w1 : World) (e : Option String) (p2 : prestoClient) (w2 : World),
      NewQuery anyUrl { freshClient with datas := ["[0]"] } "SELECT a, b FROM t"
          ⟨.resp (pageResponse queuedPage) ::
            ([.resp (pageResponse runningPage), .resp (pageResponse finishedPage)] ++ []), []⟩ =
        .ret (none, p1, w1) ∧
      WaitQueryExec anyUrl p1 w1 = .ret (e, p2, w2) ∧
      p2.datas = ["[1,2]", "[3,4]", "[1]"] ∧
      w2.answers = [] :=
  C1_rows_are_pages_in_order anyUrl { freshClient with datas := ["[0]"] } "SELECT a, b FROM t"
    queuedPage finishedPage [runningPage, finishedPage] [queuedPage, runningPage]
    (.resp (pageResponse queuedPage))
    [.resp (pageResponse runningPage), .resp (pageResponse finishedPage)] [] []
    rfl rfl (delivers_pageResponse _)
    (.cons (delivers_pageResponse _) (.cons (delivers_pageResponse _) .nil))
    (by decide) (by decide) rfl

/-- C2 as stated fails: the last page has an empty `nextUri` and the empty
string as `stats.state`, which is not "FINISHED", yet `WaitQueryExec` returns
`nil`, as the page before it had recorded "FINISHED". -/
theorem C2_empty_last_state_keeps_finished :
    silentPage.NextUri = "" ∧ silentPage.Stats.State ≠ "FINISHED" ∧
    WaitQueryExec anyUrl
        { freshClient with
          request := "SELECT 1", result := some finishedEarlyPage, state := "RUNNING" }
        ⟨[.resp (pageResponse silentPage)], []⟩ =
      .ret (none,
        { freshClient with
          request := "SELECT 1", result := some silentPage, state := "FINISHED",
          datas := ["[1]"], columns := ["n"], infoUri := "http://h:8080/ui/q1" },
        ⟨[], [.slept initialRetry,
              .sent (addHeaders freshClient
                ⟨"GET", "http://h:8080/v1/statement/q1/1", none, []⟩)]⟩) := by
  refine ⟨rfl, by decide, by decide⟩

/-- C2, amended: when the stored page and the error-free pages polled after
it end in a page with an empty `nextUri` and a `stats.state` that is a
non-empty string other than "FINISHED", `WaitQueryExec` returns the error
"Incoherent State at end of query". -/
theorem C2_incoherent_state_at_end (urlErr : String → Option String) (p : prestoClient)
    (first last : queryResult) (polled init : List queryResult)
    (answers extra : List Answer) (tr : List Event)
    (hres : p.result = some first)
    (hsplit : first :: polled = init ++ [last])
    (hpolled : List.Forall₂ Delivers answers polled)
    (hok : ∀ pg ∈ polled, pg.Error.FailureInfo.Message = "")
    (hinit : ∀ pg ∈ init, pg.NextUri ≠ "" ∧ urlErr pg.NextUri = none)
    (hlast : last.NextUri = "")
    (hstate : last.Stats.State ≠ "") (hnot : last.Stats.State ≠ "FINISHED") :
    ∃ (p1 : prestoClient) (w1 : World),
      WaitQueryExec urlErr p ⟨answers ++ extra, tr⟩ =
        .ret (some "Incoherent State at end of query", p1, w1) ∧
      p1.state = last.Stats.State ∧ w1.answers = extra := by
  have hpolls := polls_of_split urlErr first last polled init hsplit hok hinit
  have hend : (foldAll (foldResult p first) polled).nextUri = "" := by
    rw [foldAll_nextUri_of_split _ first last polled init hsplit (foldResult_nextUri _ _), hlast]
  have hst : (foldAll (foldResult p first) polled).state = last.Stats.State := by
    rcases split_cases first last polled init hsplit with ⟨h1, _, h3⟩ | ⟨qs, h1, _⟩
    · rw [h1, ← h3, foldAll, List.foldl_nil, foldResult_eq]
      simp [h3, hstate]
    · rw [h1, foldAll_concat, foldResult_eq]; simp [hstate]
  have hrun := WaitQueryExec_pages urlErr p first polled answers extra tr hres hpolled hpolls hend
  rw [hst, if_pos hnot] at hrun
  exact ⟨_, _, hrun, hst, rfl⟩

/-- C2 amended, on a query that ends "CANCELED" after one poll. -/
theorem C2_incoherent_state_at_end_witness :
    ∃ (p1 : prestoClient) (w1 : World),
      WaitQueryExec anyUrl
          { freshClient with request := "SELECT 1", result := some queuedPage, state := "RUNNING" }
          ⟨[.resp (pageResponse canceledPage)] ++ [], []⟩ =
        .ret (some "Incoherent State at end of query", p1, w1) ∧
      p1.state = "CANCELED" ∧ w1.answers = [] :=
  C2_incoherent_state_at_end anyUrl
    { freshClient with request := "SELECT 1", result := some queuedPage, state := "RUNNING" }
    queuedPage canceledPage [canceledPage] [queuedPage] [.resp (pageResponse canceledPage)] [] []
    rfl rfl (.cons (delivers_pageResponse _) .nil) (by decide) (by decide) rfl
    (by decide) (by decide)

theorem pollTrace_append (p : prestoClient) (uri : String) (xs ys : List queryResult) :
    pollTrace p uri (xs ++ ys) = pollTrace p uri xs ++ pollTrace p (lastUri uri xs) ys := by
  induction xs generalizing uri with
  | nil => rfl
  | cons pg pages ih => simp [pollTrace, lastUri, ih]

theorem foldAll_nextUri (p : prestoClient) (pages : List queryResult) :
    (foldAll p pages).nextUri = lastUri p.nextUri pages := by
  induction pages generalizing p with
  | nil => rfl
  | cons pg pages ih => rw [foldAll_cons, ih, foldResult_nextUri]; rfl

theorem addHeaders_foldAll (p : prestoClient) (pages : List queryResult) (req : Request) :
    addHeaders (foldAll p pages) req = addHeaders p req := by
  induction pages generalizing p with
  | nil => rfl
  | cons pg pages ih => rw [foldAll_cons, ih, addHeaders_foldResult]; rfl

/-- C9: a page `bad` with a non-empty failure message `m` makes the call
that receives it return the error "query failed: " followed by `m`. For
`NewQuery` it is the answer to the POST. For `WaitQueryExec` it comes after
the stored page `first` and the error-free pages `polled`, each of them naming
a continuation: the polls sent are those for `polled` and for `bad`, and
the answers after `bad` stay in the script, so no poll follows it. -/
theorem C9_failure_message_ends_the_call (urlErr : String → Option String)
    (p : prestoClient) (b : Answer) (bad : queryResult) (extra : List Answer) (tr : List Event)
    (hb : Delivers b bad) (hm : bad.Error.FailureInfo.Message ≠ "") :
    (∀ request : String, urlErr p.url = none →
      NewQuery urlErr p request ⟨b :: extra, tr⟩ =
        .ret (some ("query failed: " ++ bad.Error.FailureInfo.Message),
          { p with datas := [], request := request, nextUri := "" },
          ⟨extra, tr ++ [.sent (addHeaders p ⟨"POST", p.url, some request, []⟩)]⟩)) ∧
    (∀ (first : queryResult) (polled : List queryResult) (answers : List Answer),
      p.result = some first →
      List.Forall₂ Delivers answers polled →
      (∀ pg ∈ polled, pg.Error.FailureInfo.Message = "") →
      (∀ pg ∈ first :: polled, pg.NextUri ≠ "" ∧ urlErr pg.NextUri = none) →
      WaitQueryExec urlErr p ⟨answers ++ b :: extra, tr⟩ =
        .ret (some ("query failed: " ++ bad.Error.FailureInfo.Message),
          foldAll (foldResult p first) polled,
          ⟨extra, tr ++ pollTrace p first.NextUri (polled ++ [bad])⟩)) := by
  refine ⟨fun request hurl => NewQuery_failed urlErr p request b bad extra tr hurl hb hm, ?_⟩
  intro first polled answers hres hd hok hnext
  have hpolls : Polls urlErr first.NextUri polled :=
    polls_of_forall urlErr polled _ (hnext first (by simp)).1 (hnext first (by simp)).2
      (fun pg hpg => ⟨hok pg hpg, hnext pg (by simp [hpg])⟩)
  have hcur : (foldAll (foldResult p first) polled).nextUri ≠ "" ∧
      urlErr (foldAll (foldResult p first) polled).nextUri = none := by
    rcases foldAll_nextUri_mem (foldResult p first) polled with h | ⟨pg, hpg, h⟩
    · rw [h, foldResult_nextUri]; exact hnext first (by simp)
    · rw [h]; exact hnext pg (by simp [hpg])
  have hlen : (answers ++ b :: extra).length + 1 = (extra.length + 1 + 1) + polled.length := by
    rw [List.length_append, hd.length_eq, List.length_cons]; omega
  simp only [WaitQueryExec, getVarFromResult, hres, Run.bind_ret]
  rw [hlen, WaitQueryExecLoop_pages urlErr answers polled hd _ _ _ _
    (by rw [foldResult_nextUri]; exact hpolls),
    WaitQueryExecLoop_failed urlErr _ _ b bad extra _ hcur.1 hcur.2 hb hm]
  simp only [Run.bind_ret, foldResult_nextUri]
  rw [pollTrace_congr p _ (fun req => addHeaders_foldResult p first req), pollTrace_append,
    addHeaders_foldAll, addHeaders_foldResult, foldAll_nextUri, foldResult_nextUri]
  simp [pollTrace]

/-- C9 on a failed page, as the answer to the POST and as the answer to the
second poll. -/
theorem C9_failure_message_ends_the_call_witness :
    NewQuery anyUrl freshClient "SELECT x FROM t"
        ⟨[.resp (pageResponse failedPage), .resp (pageResponse finishedPage)], []⟩ =
      .ret (some "query failed: line 1:8: Column x cannot be resolved",
        { freshClient with request := "SELECT x FROM t" },
        ⟨[.resp (pageResponse finishedPage)],
         [.sent (addHeaders freshClient
            ⟨"POST", "http://h:8080/v1/statement", some "SELECT x FROM t", []⟩)]⟩) ∧
    WaitQueryExec anyUrl
        { freshClient with request := "SELECT x FROM t", result := some queuedPage,
                           state := "RUNNING" }
        ⟨[.resp (pageResponse runningPage), .resp (pageResponse failedPage),
          .resp (pageResponse finishedPage)], []⟩ =
      .ret (some "query failed: line 1:8: Column x cannot be resolved",
        { freshClient with
          request := "SELECT x FROM t", result := some runningPage, state := "RUNNING",
          nextUri := "http://h:8080/v1/statement/q1/2", infoUri := "http://h:8080/ui/q1",
          datas := ["[1,2]", "[3,4]"], columns := ["a", "b"] },
        ⟨[.resp (pageResponse finishedPage)],
         [.slept initialRetry,
          .sent (addHeaders freshClient ⟨"GET", "http://h:8080/v1/statement/q1/1", none, []⟩),
          .slept initialRetry,
          .sent (addHeaders freshClient ⟨"GET", "http://h:8080/v1/statement/q1/2", none, []⟩)]⟩) :=
  ⟨(C9_failure_message_ends_the_call anyUrl freshClient (.resp (pageResponse failedPage))
      failedPage [.resp (pageResponse finishedPage)] [] (delivers_pageResponse _)
      (by decide)).1 "SELECT x FROM t" rfl,
   (C9_failure_message_ends_the_call anyUrl
      { freshClient with request := "SELECT x FROM t", result := some queuedPage,
                         state := "RUNNING" }
      (.resp (pageResponse failedPage)) failedPage [.resp (pageResponse finishedPage)] []
      (delivers_pageResponse _) (by decide)).2 queuedPage [runningPage]
      [.resp (pageResponse runningPage)] rfl (.cons (delivers_pageResponse _) .nil)
      (by decide) (by decide)⟩

/-! ## Claims about `NewQuery` and `getVarFromResult` -/

/-- C11: whatever the session held before, a `NewQuery` that returns `nil`
leaves `datas` empty, `nextUri` empty and `state` equal to "RUNNING", and has
stored a page without a failure message, whatever `stats.state` that page
carries. -/
theorem C11_newQuery_success_resets (urlErr : String → Option String)
    (p p1 : prestoClient) (request : String) (w w1 : World)
    (h : NewQuery urlErr p request w = .ret (none, p1, w1)) :
    p1.datas = [] ∧ p1.nextUri = "" ∧ p1.state = "RUNNING" ∧
    ∃ pg : queryResult, p1.result = some pg ∧ pg.Error.FailureInfo.Message = "" := by
  simp only [NewQuery, getFirstQuery] at h
  split at h
  · simp at h
  · rw [Run.bind_eq_ret] at h
    obtain ⟨⟨e2, p2, w2⟩, h1, h2⟩ := h
    rcases getPrestoRequest_ret _ _ _ _ _ _ h1 with ⟨hne, _⟩ | ⟨he, r, hr, hp2⟩
    · cases e2 with
      | none => exact absurd rfl hne
      | some e3 => simp at h2
    · subst he
      simp only [Run.ret.injEq, Prod.mk.injEq, true_and] at h2
      rw [← h2.1, hp2]
      exact ⟨rfl, rfl, rfl, r, rfl, hr⟩

/-- C11 on a session left by a finished query, the new first page reporting
"FINISHED" at once. -/
theorem C11_newQuery_success_resets_witness :
    ∃ (p1 : prestoClient) (w1 : World),
      NewQuery anyUrl usedClient "SELECT 2" ⟨[.resp (pageResponse finishedPage)], []⟩ =
        .ret (none, p1, w1) ∧
      p1.datas = [] ∧ p1.nextUri = "" ∧ p1.state = "RUNNING" :=
  have h : NewQuery anyUrl usedClient "SELECT 2" ⟨[.resp (pageResponse finishedPage)], []⟩ =
      .ret (none,
        { usedClient with
          datas := [], request := "SELECT 2", nextUri := "", result := some finishedPage,
          state := "RUNNING" },
        ⟨[], [.sent (addHeaders usedClient
                ⟨"POST", "http://h:8080/v1/statement", some "SELECT 2", []⟩)]⟩) := by decide
  ⟨_, _, h, (C11_newQuery_success_resets anyUrl _ _ _ _ _ h).1,
    (C11_newQuery_success_resets anyUrl _ _ _ _ _ h).2.1,
    (C11_newQuery_success_resets anyUrl _ _ _ _ _ h).2.2.1⟩

/-- C15: `getVarFromResult` sets `nextUri` to the `NextUri` of the stored
page, and each of `infoUri`, `partialCancelUri` and `state` to the value of
the page when that value is non-empty and leaves it as it was otherwise; so
after a sequence of pages was stored and folded, `state` is the `stats.state`
of the last page with a non-empty one, or the state before them if there is
none. -/
theorem C15_getVarFromResult_fields (p : prestoClient) (dat : queryResult)
    (pages : List queryResult) (h : p.result = some dat) :
    (∃ p1 : prestoClient,
      getVarFromResult p = .ret p1 ∧
      p1.nextUri = dat.NextUri ∧
      p1.infoUri = (if dat.InfoUri ≠ "" then dat.InfoUri else p.infoUri) ∧
      p1.partialCancelUri =
        (if dat.PartialCancelUri ≠ "" then dat.PartialCancelUri else p.partialCancelUri) ∧
      p1.state = (if dat.Stats.State ≠ "" then dat.Stats.State else p.state)) ∧
    (∃ p2 : prestoClient,
      foldPages p pages = .ret p2 ∧
      p2.state =
        match pages.reverse.find? (fun pg => pg.Stats.State ≠ "") with
        | some pg => pg.Stats.State
        | none => p.state) := by
  constructor
  · refine ⟨foldResult p dat, by simp [getVarFromResult, h], ?_⟩
    rw [foldResult_eq]
    exact ⟨rfl, rfl, rfl, rfl⟩
  · refine ⟨_, foldPages_eq p pages, ?_⟩
    clear h
    induction pages using List.reverseRecOn with
    | nil => rfl
    | append_singleton qs q ih =>
      rw [foldAll_concat, foldResult_eq, List.reverse_append]
      by_cases hq : q.Stats.State = ""
      · simp [hq]
        simpa using ih
      · simp [hq]

/-- C15 on a session whose stored page has a state and no info URI, folded
with a sequence whose last page has no state. -/
theorem C15_getVarFromResult_fields_witness :
    (∃ p1 : prestoClient,
      getVarFromResult { freshClient with result := some silentPage, infoUri := "i0" } =
        .ret p1 ∧
      p1.nextUri = "" ∧ p1.infoUri = "i0" ∧ p1.partialCancelUri = "" ∧ p1.state = "NONE") ∧
    (∃ p2 : prestoClient,
      foldPages { freshClient with result := some silentPage, infoUri := "i0" }
          [queuedPage, runningPage, silentPage] = .ret p2 ∧
      p2.state = "RUNNING") :=
  C15_getVarFromResult_fields { freshClient with result := some silentPage, infoUri := "i0" }
    silentPage [queuedPage, runningPage, silentPage] rfl

/-! ## The URL of `GetFinishedQuery` -/

theorem splitChars_ne_nil (sep : Char) (cs : List Char) : splitChars sep cs ≠ [] := by
  induction cs with
  | nil => simp [splitChars]
  | cons c cs ih =>
    simp only [splitChars]
    split
    · simp
    · split <;> simp

theorem splitChars_of_not_mem (sep : Char) (cs : List Char) (h : sep ∉ cs) :
    splitChars sep cs = [cs] := by
  induction cs with
  | nil => rfl
  | cons c cs ih =>
    have hc : c ≠ sep := fun hc => h (by simp [hc])
    have hcs : sep ∉ cs := fun hm => h (by simp [hm])
    simp [splitChars, hc, ih hcs]

theorem splitChars_append (sep : Char) (xs ys : List Char) (h : sep ∉ ys) :
    splitChars sep (xs ++ sep :: ys) = splitChars sep xs ++ [ys] := by
  induction xs with
  | nil => simp [splitChars, splitChars_of_not_mem sep ys h]
  | cons c cs ih =>
    by_cases hc : c = sep
    · simp [splitChars, hc, ih]
    · cases hs : splitChars sep cs with
      | nil => exact absurd hs (splitChars_ne_nil sep cs)
      | cons x t => simp [splitChars, hc, ih, hs]

theorem splitChars_join (sep : Char) (cs h : List Char) (t : List (List Char))
    (hs : splitChars sep cs = h :: t) :
    h ++ (t.map (fun x => sep :: x)).flatten = cs := by
  induction cs generalizing h t with
  | nil =>
    simp only [splitChars, List.cons.injEq] at hs
    rw [← hs.1, ← hs.2]; rfl
  | cons c cs ih =>
    simp only [splitChars] at hs
    split at hs
    · rename_i hc
      simp only [List.cons.injEq] at hs
      cases hs2 : splitChars sep cs with
      | nil => exact absurd hs2 (splitChars_ne_nil sep cs)
      | cons x t2 =>
        rw [← hs.1, ← hs.2, hs2, hc]
        simp [ih x t2 hs2]
    · cases hs2 : splitChars sep cs with
      | nil => exact absurd hs2 (splitChars_ne_nil sep cs)
      | cons x t2 =>
        rw [hs2] at hs
        simp only [List.cons.injEq] at hs
        rw [← hs.1, ← hs.2]
        simp [ih x t2 hs2]

theorem intercalate_go_data (acc s : String) (l : List String) :
    (String.intercalate.go acc s l).data =
      acc.data ++ (l.map (fun a => s.data ++ a.data)).flatten := by
  induction l generalizing acc with
  | nil => simp [String.intercalate.go]
  | cons a as ih => simp [String.intercalate.go, ih]

theorem Join_cons_data (a : String) (as : List String) :
    (Join (a :: as)).data = a.data ++ (as.map (fun x => '/' :: x.data)).flatten := by
  simp [Join, String.intercalate, intercalate_go_data]


theorem finishedQueryUrl_of_no_slash (u id : String) (h : '/' ∉ u.data) :
    finishedQueryUrl u id = "query/" ++ id ++ "?pretty" := by
  apply String.ext
  simp only [finishedQueryUrl, Split, splitChars_of_not_mem '/' u.data h]
  simp only [List.map_cons, List.map_nil, List.length_singleton, Nat.sub_self, List.take_zero,
    List.nil_append, Join_cons_data]
  simp

theorem finishedQueryUrl_of_slash (pre last id : String) (h : '/' ∉ last.data) :
    finishedQueryUrl (pre ++ "/" ++ last) id = pre ++ "/" ++ ("query/" ++ id ++ "?pretty") := by
  apply String.ext
  have hd : (pre ++ "/" ++ last).data = pre.data ++ '/' :: last.data := by
    simp
  simp only [finishedQueryUrl, Split, hd, splitChars_append '/' pre.data last.data h]
  cases hs : splitChars '/' pre.data with
  | nil => exact absurd hs (splitChars_ne_nil _ _)
  | cons x t =>
    have hj := splitChars_join '/' pre.data x t hs
    simp only [List.map_append, List.map_cons, List.map_nil, List.length_append,
      List.length_cons, List.length_map, List.length_nil, Nat.add_sub_cancel,
      List.cons_append]
    have htake : List.take (t.length + (0 + 1))
        (String.mk x :: (List.map String.mk t ++ [String.mk last.data])) =
        String.mk x :: List.map String.mk t := by
      rw [← List.cons_append]
      exact List.take_left' (by simp)
    rw [htake, List.cons_append, Join_cons_data]
    simp only [List.map_append, List.map_map, List.flatten_append, String.data_append]
    rw [← hj]
    simp [Function.comp_def]

/-- C12: on a session whose stored page has the id `dat.ID`, the request of
`GetFinishedQuery` is a GET to the URL built from `p.url`: when `p.url` is
`pre`, a "/" and a last segment without "/", that URL is `pre`, the "/" and
"query/" ++ id ++ "?pretty"; when `p.url` holds no "/" the URL is
"query/" ++ id ++ "?pretty" alone. -/
theorem C12_finished_query_url (urlErr : String → Option String) (p : prestoClient)
    (dat : queryResult) (a : Answer) (rest : List Answer) (tr : List Event)
    (hres : p.result = some dat)
    (hparse : urlErr (finishedQueryUrl p.url dat.ID) = none)
    (ha : ∀ res, a = .resp res → res.StatusCode ≠ 503) :
    (∃ r : Res (List (String × Value)),
      GetFinishedQuery urlErr p ⟨a :: rest, tr⟩ =
        .ret (r, p, ⟨rest, tr ++
          [.sent (addHeaders p ⟨"GET", finishedQueryUrl p.url dat.ID, none, []⟩)]⟩)) ∧
    (∀ pre last : String, p.url = pre ++ "/" ++ last → '/' ∉ last.data →
      finishedQueryUrl p.url dat.ID = pre ++ "/" ++ ("query/" ++ dat.ID ++ "?pretty")) ∧
    ('/' ∉ p.url.data → finishedQueryUrl p.url dat.ID = "query/" ++ dat.ID ++ "?pretty") ∧
    finishedQueryUrl "http://h:8080/v1/statement" "q1" = "http://h:8080/v1/query/q1?pretty" := by
  refine ⟨?_, ?_, finishedQueryUrl_of_no_slash p.url dat.ID, by decide⟩
  · simp only [GetFinishedQuery, hres, NewRequest, hparse, Res.ptr]
    rw [makeRequest_first _ _ a rest tr ha]
    cases a with
    | fail e => exact ⟨_, rfl⟩
    | resp res =>
      simp only [Run.bind_ret]
      split <;> exact ⟨_, rfl⟩
  · intro pre last hu hl
    rw [hu]
    exact finishedQueryUrl_of_slash pre last dat.ID hl

/-- C12 on the statement endpoint "http://h:8080/v1/statement" and the query
id "q1". -/
theorem C12_finished_query_url_witness :
    ∃ r : Res (List (String × Value)),
      GetFinishedQuery anyUrl { freshClient with result := some finishedPage }
          ⟨[.resp (pageResponse finishedPage)], []⟩ =
        .ret (r, { freshClient with result := some finishedPage },
          ⟨[], [] ++ [.sent (addHeaders freshClient
                  ⟨"GET", "http://h:8080/v1/query/q1?pretty", none, []⟩)]⟩) :=
  (C12_finished_query_url anyUrl { freshClient with result := some finishedPage }
    finishedPage (.resp (pageResponse finishedPage)) [] [] rfl rfl
    (by intro res hres; cases hres; decide)).1

/-! ## Claims about the result and the polls of `WaitQueryExec` -/

/-- A call of the loop of `makeRequest` that returns has taken a run of
503 answers and one answer that is not a 503, which decides what it returns. -/
theorem makeRequestLoop_ret_script (req : Request) (answers : List Answer) (retry : Nat)
    (tr : List Event) (r : Res Response) (w1 : World)
    (h : makeRequestLoop req retry answers tr = .ret (r, w1)) :
    ∃ (busy : List Response) (a : Answer),
      answers = busy.map Answer.resp ++ a :: w1.answers ∧
      (∀ b ∈ busy, b.StatusCode = 503) ∧
      (∀ res, a = .resp res → res.StatusCode ≠ 503) ∧
      r = (match a with
           | .fail e => .err e
           | .resp res =>
             if res.StatusCode = 200 then .ok res
             else .err ("unexpected http status: " ++ res.Status)) := by
  induction answers generalizing retry tr with
  | nil => simp [makeRequestLoop] at h
  | cons a rest ih =>
    by_cases ha : ∀ res, a = .resp res → res.StatusCode ≠ 503
    · have hf := makeRequestLoop_final req a ha retry rest tr
      rw [hf] at h
      simp only [Run.ret.injEq, Prod.mk.injEq] at h
      refine ⟨[], a, ?_, by simp, ha, ?_⟩
      · rw [← h.2]; rfl
      · rw [← h.1]; cases a <;> rfl
    · have hres : ∃ res, a = .resp res ∧ res.StatusCode = 503 := by
        by_contra hno
        exact ha (fun res h1 h2 => hno ⟨res, h1, h2⟩)
      obtain ⟨res, rfl, h503⟩ := hres
      simp only [makeRequestLoop, h503] at h
      rw [if_neg (by decide), if_neg (by decide)] at h
      obtain ⟨busy, a2, h1, h2, h3, h4⟩ := ih _ _ h
      refine ⟨res :: busy, a2, by rw [h1]; rfl, ?_, h3, h4⟩
      intro b hb
      rcases List.mem_cons.1 hb with hb | hb
      · rw [hb]; exact h503
      · exact h2 b hb

/-- A call of `getPrestoRequest` that returns has taken a run of 503 answers
and one answer that is not a 503; its error value is the failure of that
answer, if any. -/
theorem getPrestoRequest_ret_script (p p1 : prestoClient) (req : Option Request)
    (w w1 : World) (e : Option String)
    (h : getPrestoRequest p req w = .ret (e, p1, w1)) :
    ∃ (busy : List Response) (a : Answer),
      w.answers = busy.map Answer.resp ++ a :: w1.answers ∧
      (∀ b ∈ busy, b.StatusCode = 503) ∧
      (∀ res, a = .resp res → res.StatusCode ≠ 503) ∧
      e = failureOf a := by
  rw [getPrestoRequest, Run.bind_eq_ret] at h
  obtain ⟨⟨r, w2⟩, h1, h2⟩ := h
  cases req with
  | none => simp [makeRequest] at h1
  | some rq =>
    obtain ⟨busy, a, ha1, ha2, ha3, ha4⟩ := makeRequestLoop_ret_script _ _ _ _ _ _ h1
    cases a with
    | fail e0 =>
      simp only at ha4
      subst ha4
      simp only [Run.ret.injEq, Prod.mk.injEq] at h2
      refine ⟨busy, .fail e0, by rw [← h2.2.2]; exact ha1, ha2, ha3, ?_⟩
      rw [← h2.1]; rfl
    | resp res =>
      simp only at ha4
      by_cases h200 : res.StatusCode = 200
      · rw [if_pos h200] at ha4
        subst ha4
        simp only at h2
        cases hr : readResult res with
        | err e1 =>
          rw [hr] at h2
          simp only [Run.ret.injEq, Prod.mk.injEq] at h2
          refine ⟨busy, .resp res, by rw [← h2.2.2]; exact ha1, ha2, ha3, ?_⟩
          rw [← h2.1]; simp [failureOf, h200, hr]
        | ok pg =>
          rw [hr] at h2
          simp only at h2
          split at h2
          · rename_i hm
            simp only [Run.ret.injEq, Prod.mk.injEq] at h2
            refine ⟨busy, .resp res, by rw [← h2.2.2]; exact ha1, ha2, ha3, ?_⟩
            rw [← h2.1]; simp [failureOf, h200, hr, hm]
          · rename_i hm
            simp only [Run.ret.injEq, Prod.mk.injEq] at h2
            refine ⟨busy, .resp res, by rw [← h2.2.2]; exact ha1, ha2, ha3, ?_⟩
            rw [← h2.1]; simp [failureOf, h200, hr, hm]
      · rw [if_neg h200] at ha4
        subst ha4
        simp only [Run.ret.injEq, Prod.mk.injEq] at h2
        refine ⟨busy, .resp res, by rw [← h2.2.2]; exact ha1, ha2, ha3, ?_⟩
        rw [← h2.1]; simp [failureOf, h200, ha3 res rfl]

/-- An answer that is not a 503 makes no failure exactly when it delivers a
page without a failure message. -/
theorem failureOf_eq_none_iff (a : Answer) (ha : ∀ res, a = .resp res → res.StatusCode ≠ 503) :
    failureOf a = none ↔ ∃ pg : queryResult, Delivers a pg ∧ pg.Error.FailureInfo.Message = "" := by
  cases a with
  | fail e =>
    simp only [failureOf, Delivers]
    constructor
    · intro h; cases h
    · rintro ⟨pg, ⟨res, hres, _⟩, _⟩; cases hres
  | resp res =>
    have h503 := ha res rfl
    simp only [failureOf, Delivers]
    constructor
    · intro h
      by_cases h200 : res.StatusCode = 200
      · rw [if_pos h200] at h
        unfold readResult at h
        cases hre : res.Body.readErr with
        | some e => rw [hre] at h; simp at h
        | none =>
          rw [hre] at h
          simp only at h
          cases hpg : res.Body.page with
          | err e => rw [hpg] at h; simp at h
          | ok pg =>
            rw [hpg] at h
            simp only at h
            split at h
            · simp at h
            · rename_i hm
              exact ⟨pg, ⟨res, rfl, h200, hre, hpg⟩, by simpa using hm⟩
      · rw [if_neg h200, if_pos h503] at h
        simp at h
    · rintro ⟨pg, ⟨res2, hres, h200, hre, hpg⟩, hm⟩
      cases hres
      simp [h200, readResult, hre, hpg, hm]

theorem pollOk_of_busy (res : Response) (h : res.StatusCode = 503) : PollOk (.resp res) :=
  Or.inl ⟨res, rfl, h⟩

theorem pollOk_iff_failureOf (a : Answer) (ha : ∀ res, a = .resp res → res.StatusCode ≠ 503) :
    PollOk a ↔ failureOf a = none := by
  rw [failureOf_eq_none_iff a ha]
  constructor
  · rintro (⟨res, hres, h503⟩ | h)
    · exact absurd h503 (ha res hres)
    · exact h
  · exact Or.inr

/-- Whenever the loop of `WaitQueryExec` returns, it has taken a first part
of the script, and it returns no error exactly when each answer it took is a
503 or an error-free page. -/
theorem WaitQueryExecLoop_consumed (urlErr : String → Option String) (fuel : Nat)
    (p p1 : prestoClient) (w w1 : World) (e : Option String)
    (h : WaitQueryExecLoop urlErr fuel p w = .ret (e, p1, w1)) :
    ∃ consumed : List Answer,
      w.answers = consumed ++ w1.answers ∧ (e = none ↔ ∀ a ∈ consumed, PollOk a) := by
  induction fuel generalizing p w with
  | zero => simp [WaitQueryExecLoop] at h
  | succ fuel ih =>
    simp only [WaitQueryExecLoop] at h
    split at h
    · rw [Run.bind_eq_ret] at h
      obtain ⟨⟨e2, p2, w2⟩, h1, h2⟩ := h
      obtain ⟨busy, a, ha1, ha2, ha3, ha4⟩ := getPrestoRequest_ret_script _ _ _ _ _ _ h1
      simp only at ha1
      have hbusy : ∀ x ∈ busy.map Answer.resp, PollOk x := by
        intro x hx
        obtain ⟨b, hb, rfl⟩ := List.mem_map.1 hx
        exact pollOk_of_busy b (ha2 b hb)
      cases e2 with
      | some e3 =>
        simp only [Run.ret.injEq, Prod.mk.injEq] at h2
        refine ⟨busy.map Answer.resp ++ [a], by rw [← h2.2.2, ha1]; simp, ?_⟩
        rw [← h2.1]
        constructor
        · intro h0; cases h0
        · intro hall
          have hok := (pollOk_iff_failureOf a ha3).1 (hall a (by simp))
          rw [← ha4] at hok
          cases hok
      | none =>
        simp only at h2
        rw [Run.bind_eq_ret] at h2
        obtain ⟨p3, _, h4⟩ := h2
        obtain ⟨consumed, hc1, hc2⟩ := ih _ _ h4
        have hok : PollOk a := (pollOk_iff_failureOf a ha3).2 ha4.symm
        refine ⟨busy.map Answer.resp ++ a :: consumed, by rw [ha1, hc1]; simp, ?_⟩
        rw [hc2]
        constructor
        · intro hall x hx
          rcases List.mem_append.1 hx with hx | hx
          · exact hbusy x hx
          · rcases List.mem_cons.1 hx with hx | hx
            · rw [hx]; exact hok
            · exact hall x hx
        · intro hall x hx
          exact hall x (by simp [hx])
    · simp only [Run.ret.injEq, Prod.mk.injEq] at h
      exact ⟨[], by rw [← h.2.2]; rfl, by rw [← h.1]; simp⟩

/-- C13: a `WaitQueryExec` that returns has taken a first part `consumed`
of the script, and it returns `nil` if and only if every poll succeeded with
an error-free page, that is each answer it took is a 503 retried by
`makeRequest` or a 200 response that decodes to a page without a failure
message, and the state left after the last fold is "FINISHED"; and when it
returns `nil`, `GetData` returns exactly the accumulated rows `datas`. -/
theorem C13_nil_iff_polls_ok_and_finished (urlErr : String → Option String)
    (p p1 : prestoClient) (w w1 : World) (e : Option String)
    (h : WaitQueryExec urlErr p w = .ret (e, p1, w1)) :
    ∃ consumed : List Answer,
      w.answers = consumed ++ w1.answers ∧
      (e = none ↔ (∀ a ∈ consumed, PollOk a) ∧ p1.state = "FINISHED") ∧
      (e = none → GetData p1 = (p1.datas, p1)) := by
  rw [WaitQueryExec, Run.bind_eq_ret] at h
  obtain ⟨p2, _, h2⟩ := h
  rw [Run.bind_eq_ret] at h2
  obtain ⟨⟨e3, p3, w3⟩, h3, h4⟩ := h2
  obtain ⟨consumed, hc1, hc2⟩ := WaitQueryExecLoop_consumed urlErr _ _ _ _ _ _ h3
  cases e3 with
  | some e4 =>
    simp only [Run.ret.injEq, Prod.mk.injEq] at h4
    have hne : ¬ ∀ a ∈ consumed, PollOk a := fun hall => by simpa using hc2.2 hall
    refine ⟨consumed, by rw [← h4.2.2]; exact hc1, ?_, ?_⟩
    · rw [← h4.1]; simp [hne]
    · rw [← h4.1]; simp
  | none =>
    have hall := hc2.1 rfl
    simp only at h4
    split at h4
    · rename_i hst
      simp only [Run.ret.injEq, Prod.mk.injEq] at h4
      refine ⟨consumed, by rw [← h4.2.2]; exact hc1, ?_, ?_⟩
      · rw [← h4.1, ← h4.2.1]; simp [hst]
      · rw [← h4.1]; simp
    · rename_i hst
      simp only [Run.ret.injEq, Prod.mk.injEq] at h4
      have hfin : p3.state = "FINISHED" := by simpa using hst
      refine ⟨consumed, by rw [← h4.2.2]; exact hc1, ?_, ?_⟩
      · rw [← h4.1, ← h4.2.1]
        simp only [hfin, and_true, true_iff]
        exact hall
      · intro _
        rw [← h4.2.1]
        simp [GetData, hfin]

/-- C13 on a query of two pages that ends "FINISHED", the poll meeting one
503 before its page. -/
theorem C13_nil_iff_polls_ok_and_finished_witness :
    ∃ (p1 : prestoClient) (w1 : World),
      WaitQueryExec anyUrl
          { freshClient with request := "SELECT 1", result := some queuedPage, state := "RUNNING" }
          ⟨[.resp busyResponse, .resp (pageResponse finishedPage)], []⟩ = .ret (none, p1, w1) ∧
      (∃ consumed : List Answer,
        [Answer.resp busyResponse, .resp (pageResponse finishedPage)] = consumed ++ w1.answers ∧
        (∀ a ∈ consumed, PollOk a) ∧ p1.state = "FINISHED") ∧
      GetData p1 = (["[1]"], p1) := by
  have h : WaitQueryExec anyUrl
      { freshClient with request := "SELECT 1", result := some queuedPage, state := "RUNNING" }
      ⟨[.resp busyResponse, .resp (pageResponse finishedPage)], []⟩ =
      .ret (none,
        { freshClient with
          request := "SELECT 1", result := some finishedPage, state := "FINISHED",
          datas := ["[1]"], columns := ["n"], infoUri := "http://h:8080/ui/q1" },
        ⟨[], [.slept initialRetry,
              .sent (addHeaders freshClient
                ⟨"GET", "http://h:8080/v1/statement/q1/1", none, []⟩),
              .slept initialRetry,
              .sent (addHeaders freshClient
                ⟨"GET", "http://h:8080/v1/statement/q1/1", none, []⟩)]⟩) := by decide
  obtain ⟨consumed, h1, h2, h3⟩ := C13_nil_iff_polls_ok_and_finished anyUrl _ _ _ _ _ h
  exact ⟨_, _, h, ⟨consumed, h1, h2.1 rfl⟩, h3 rfl⟩

/-- The requests in the trace of the polls: one GET per page of `init`, to
its `NextUri`. -/
theorem requestsOf_pollTrace_of_split (p : prestoClient) (first last : queryResult)
    (polled init : List queryResult) (hsplit : first :: polled = init ++ [last]) :
    requestsOf (pollTrace p first.NextUri polled) =
      init.map (fun pg => addHeaders p ⟨"GET", pg.NextUri, none, []⟩) := by
  induction polled generalizing first init with
  | nil =>
    rcases split_cases first last [] init hsplit with ⟨_, h2, _⟩ | ⟨qs, h1, _⟩
    · rw [h2]; rfl
    · simp at h1
  | cons q qs ih =>
    rcases split_cases first last (q :: qs) init hsplit with ⟨h1, _, _⟩ | ⟨rs, h1, h2⟩
    · simp at h1
    · rw [h2]
      simp only [pollTrace, requestsOf, List.map_cons, List.cons.injEq, true_and]
      exact ih q rs h1

/-- C14: let the stored page `first` and the error-free pages after it be
such that `last` is the first page with an empty `nextUri`, `init` being the
pages before it. Then `WaitQueryExec` returns after exactly one GET per page
of `init`, the `j`-th to the `nextUri` of the `j`-th page, it leaves `nextUri`
empty and the answers after `last` unread; when `first` itself has an empty
`nextUri` the trace is left as it was. -/
theorem C14_polls_until_empty_nextUri (urlErr : String → Option String) (p : prestoClient)
    (first last : queryResult) (polled init : List queryResult)
    (answers extra : List Answer) (tr : List Event)
    (hres : p.result = some first)
    (hsplit : first :: polled = init ++ [last])
    (hpolled : List.Forall₂ Delivers answers polled)
    (hok : ∀ pg ∈ polled, pg.Error.FailureInfo.Message = "")
    (hinit : ∀ pg ∈ init, pg.NextUri ≠ "" ∧ urlErr pg.NextUri = none)
    (hlast : last.NextUri = "") :
    ∃ (e : Option String) (p1 : prestoClient) (w1 : World),
      WaitQueryExec urlErr p ⟨answers ++ extra, tr⟩ = .ret (e, p1, w1) ∧
      p1.nextUri = "" ∧
      w1.answers = extra ∧
      requestsOf w1.trace =
        requestsOf tr ++ init.map (fun pg => addHeaders p ⟨"GET", pg.NextUri, none, []⟩) ∧
      (requestsOf w1.trace).length = (requestsOf tr).length + init.length ∧
      (first.NextUri = "" → w1.trace = tr) := by
  have hpolls := polls_of_split urlErr first last polled init hsplit hok hinit
  have hend : (foldAll (foldResult p first) polled).nextUri = "" := by
    rw [foldAll_nextUri_of_split _ first last polled init hsplit (foldResult_nextUri _ _), hlast]
  have hreq := requestsOf_pollTrace_of_split p first last polled init hsplit
  refine ⟨_, _, _,
    WaitQueryExec_pages urlErr p first polled answers extra tr hres hpolled hpolls hend,
    hend, rfl, ?_, ?_, ?_⟩
  · rw [requestsOf_append, hreq]
  · rw [requestsOf_append, hreq]; simp
  · intro hfirst
    rcases split_cases first last polled init hsplit with ⟨h1, _, _⟩ | ⟨qs, _, h2⟩
    · rw [h1]; simp [pollTrace]
    · exact absurd hfirst (hinit first (by rw [h2]; simp)).1

/-- C14 on three pages: two polls, to the `nextUri` of the first and of the
second page; the answer after the last page is left unread. -/
theorem C14_polls_until_empty_nextUri_witness :
    ∃ (e : Option String) (p1 : prestoClient) (w1 : World),
      WaitQueryExec anyUrl
          { freshClient with request := "SELECT 1", result := some queuedPage, state := "RUNNING" }
          ⟨[.resp (pageResponse runningPage), .resp (pageResponse finishedPage)] ++
            [.resp (pageResponse canceledPage)], []⟩ = .ret (e, p1, w1) ∧
      p1.nextUri = "" ∧
      w1.answers = [.resp (pageResponse canceledPage)] ∧
      requestsOf w1.trace =
        [addHeaders freshClient ⟨"GET", "http://h:8080/v1/statement/q1/1", none, []⟩,
         addHeaders freshClient ⟨"GET", "http://h:8080/v1/statement/q1/2", none, []⟩] := by
  obtain ⟨e, p1, w1, h1, h2, h3, h4, _, _⟩ := C14_polls_until_empty_nextUri anyUrl
    { freshClient with request := "SELECT 1", result := some queuedPage, state := "RUNNING" }
    queuedPage finishedPage [runningPage, finishedPage] [queuedPage, runningPage]
    [.resp (pageResponse runningPage), .resp (pageResponse finishedPage)]
    [.resp (pageResponse canceledPage)] [] rfl rfl
    (.cons (delivers_pageResponse _) (.cons (delivers_pageResponse _) .nil))
    (by decide) (by decide) rfl
  exact ⟨e, p1, w1, h1, h2, h3, h4⟩

/-! ## Claims about failed requests -/

theorem getPrestoRequest_failureOf (p : prestoClient) (req : Request) (b : Answer)
    (err : String) (rest : List Answer) (tr : List Event) (hb : failureOf b = some err) :
    getPrestoRequest p (some req) ⟨b :: rest, tr⟩ =
      .ret (some err, p, ⟨rest, tr ++ [.sent (addHeaders p req)]⟩) := by
  cases b with
  | fail e =>
    simp only [failureOf, Option.some.injEq] at hb
    rw [getPrestoRequest, makeRequest_first _ _ _ _ _ (by intro r hr; cases hr)]
    simp [hb]
  | resp res =>
    simp only [failureOf] at hb
    by_cases h200 : res.StatusCode = 200
    · rw [if_pos h200] at hb
      rw [getPrestoRequest, makeRequest_first _ _ _ _ _ (by intro r hr; cases hr; omega)]
      simp only [h200, if_true, Run.bind_ret]
      cases hr : readResult res with
      | err e =>
        rw [hr] at hb
        simp only [Option.some.injEq] at hb
        simp [hb]
      | ok pg =>
        rw [hr] at hb
        simp only at hb
        split at hb
        · rename_i hm
          simp only [Option.some.injEq] at hb
          simp [hm, hb]
        · simp at hb
    · rw [if_neg h200] at hb
      split at hb
      · rename_i h503
        simp only [Option.some.injEq] at hb
        rw [getPrestoRequest, makeRequest_first _ _ _ _ _ (by
          intro r hr; cases hr; exact h503)]
        simp [h200, hb]
      · simp at hb

/-- One round of the loop whose poll fails. -/
theorem WaitQueryExecLoop_failureOf (urlErr : String → Option String) (fuel : Nat)
    (p : prestoClient) (b : Answer) (err : String) (rest : List Answer) (tr : List Event)
    (hne : p.nextUri ≠ "") (hurl : urlErr p.nextUri = none) (hb : failureOf b = some err) :
    WaitQueryExecLoop urlErr (fuel + 1) p ⟨b :: rest, tr⟩ =
      .ret (some err, p,
        ⟨rest, tr ++ [.slept initialRetry, .sent (addHeaders p ⟨"GET", p.nextUri, none, []⟩)]⟩) := by
  rw [WaitQueryExecLoop, if_pos hne]
  simp only [getNextQuery, NewRequest, hurl, Res.ptr]
  rw [getPrestoRequest_failureOf _ _ _ _ _ _ hb]
  simp

/-- C16: a request made through `getPrestoRequest` that fails, be it by a
transport error, an unexpected status, a body that does not decode or a page
with a failure message, leaves the session as it was, `result`, `datas`,
`columns`, `state`, `nextUri`, `infoUri` and `partialCancelUri` included. So
when the poll after the stored page `first` and the pages `polled` fails,
`WaitQueryExec` returns that error and leaves the session as the folds of
`first` and `polled` left it: `datas` is what it was on entry followed by
the rows of these pages, and `state` is not changed by the failed poll. -/
theorem C16_failed_request_leaves_session (urlErr : String → Option String)
    (p : prestoClient) (b : Answer) (err : String) (extra : List Answer) (tr : List Event)
    (hb : failureOf b = some err) :
    (∀ (req : Option Request) (w w1 : World) (e : String) (p1 : prestoClient),
      getPrestoRequest p req w = .ret (some e, p1, w1) → p1 = p) ∧
    (∀ req : Request,
      getPrestoRequest p (some req) ⟨b :: extra, tr⟩ =
        .ret (some err, p, ⟨extra, tr ++ [.sent (addHeaders p req)]⟩)) ∧
    (∀ (first : queryResult) (polled : List queryResult) (answers : List Answer),
      p.result = some first →
      List.Forall₂ Delivers answers polled →
      (∀ pg ∈ polled, pg.Error.FailureInfo.Message = "") →
      (∀ pg ∈ first :: polled, pg.NextUri ≠ "" ∧ urlErr pg.NextUri = none) →
      ∃ (p1 : prestoClient) (w1 : World),
        WaitQueryExec urlErr p ⟨answers ++ b :: extra, tr⟩ = .ret (some err, p1, w1) ∧
        p1 = foldAll (foldResult p first) polled ∧
        p1.datas = p.datas ++ ((first :: polled).map (·.Data)).flatten ∧
        (p.datas = [] → p1.datas = ((first :: polled).map (·.Data)).flatten) ∧
        w1.answers = extra) := by
  refine ⟨?_, fun req => getPrestoRequest_failureOf p req b err extra tr hb, ?_⟩
  · intro req w w1 e p1 h
    rcases getPrestoRequest_ret p p1 req w w1 _ h with ⟨_, h1⟩ | ⟨h1, _⟩
    · exact h1
    · simp at h1
  · intro first polled answers hres hd hok hnext
    have hpolls : Polls urlErr first.NextUri polled :=
      polls_of_forall urlErr polled _ (hnext first (by simp)).1 (hnext first (by simp)).2
        (fun pg hpg => ⟨hok pg hpg, hnext pg (by simp [hpg])⟩)
    have hcur : (foldAll (foldResult p first) polled).nextUri ≠ "" ∧
        urlErr (foldAll (foldResult p first) polled).nextUri = none := by
      rcases foldAll_nextUri_mem (foldResult p first) polled with h | ⟨pg, hpg, h⟩
      · rw [h, foldResult_nextUri]; exact hnext first (by simp)
      · rw [h]; exact hnext pg (by simp [hpg])
    have hlen : (answers ++ b :: extra).length + 1 = (extra.length + 1 + 1) + polled.length := by
      rw [List.length_append, hd.length_eq, List.length_cons]; omega
    have hdatas : (foldAll (foldResult p first) polled).datas =
        p.datas ++ ((first :: polled).map (·.Data)).flatten := by
      rw [foldAll_datas, foldResult_eq]; simp
    have hrun : ∃ w1 : World,
        WaitQueryExec urlErr p ⟨answers ++ b :: extra, tr⟩ =
          .ret (some err, foldAll (foldResult p first) polled, w1) ∧ w1.answers = extra := by
      simp only [WaitQueryExec, getVarFromResult, hres, Run.bind_ret]
      rw [hlen, WaitQueryExecLoop_pages urlErr answers polled hd _ _ _ _
        (by rw [foldResult_nextUri]; exact hpolls),
        WaitQueryExecLoop_failureOf urlErr _ _ b err extra _ hcur.1 hcur.2 hb]
      exact ⟨_, rfl, rfl⟩
    obtain ⟨w1, hw1, hw2⟩ := hrun
    exact ⟨_, w1, hw1, rfl, hdatas, fun h0 => by rw [hdatas, h0]; rfl, hw2⟩

/-- C16 on a poll answered "500 Internal Server Error" after one page of
rows was folded. -/
theorem C16_failed_request_leaves_session_witness :
    ∃ (p1 : prestoClient) (w1 : World),
      WaitQueryExec anyUrl
          { freshClient with request := "SELECT 1", result := some queuedPage, state := "RUNNING" }
          ⟨[.resp (pageResponse runningPage)] ++
            .resp ⟨500, "500 Internal Server Error", ⟨none, .err "", .err ""⟩⟩ ::
              [.resp (pageResponse finishedPage)], []⟩ =
        .ret (some "unexpected http status: 500 Internal Server Error", p1, w1) ∧
      p1.datas = ["[1,2]", "[3,4]"] ∧ p1.state = "RUNNING" ∧ p1.result = some runningPage ∧
      w1.answers = [.resp (pageResponse finishedPage)] := by
  obtain ⟨p1, w1, h1, h2, h3, _, h5⟩ :=
    (C16_failed_request_leaves_session anyUrl
      { freshClient with request := "SELECT 1", result := some queuedPage, state := "RUNNING" }
      (.resp ⟨500, "500 Internal Server Error", ⟨none, .err "", .err ""⟩⟩)
      "unexpected http status: 500 Internal Server Error"
      [.resp (pageResponse finishedPage)] [] (by decide)).2.2
      queuedPage [runningPage] [.resp (pageResponse runningPage)] rfl
      (.cons (delivers_pageResponse _) .nil) (by decide) (by decide)
  refine ⟨p1, w1, h1, by rw [h3]; decide, by rw [h2]; decide, by rw [h2]; decide, h5⟩

/-! ## Claims about the stored page -/

theorem foldResult_result (p : prestoClient) (dat : queryResult) :
    (foldResult p dat).result = p.result := by
  rw [foldResult_eq]

/-- Whenever the loop of `WaitQueryExec` returns, the continuation of the
session is still that of its stored page, if it was so at the start. -/
theorem WaitQueryExecLoop_stored (urlErr : String → Option String) (fuel : Nat)
    (p p1 : prestoClient) (w w1 : World) (e : Option String)
    (hinv : ∃ dat, p.result = some dat ∧ p.nextUri = dat.NextUri)
    (h : WaitQueryExecLoop urlErr fuel p w = .ret (e, p1, w1)) :
    ∃ dat, p1.result = some dat ∧ p1.nextUri = dat.NextUri := by
  induction fuel generalizing p w with
  | zero => simp [WaitQueryExecLoop] at h
  | succ fuel ih =>
    simp only [WaitQueryExecLoop] at h
    split at h
    · rw [Run.bind_eq_ret] at h
      obtain ⟨⟨e2, p2, w2⟩, h1, h2⟩ := h
      rcases getPrestoRequest_ret _ _ _ _ _ _ h1 with ⟨hne, hp2⟩ | ⟨he, r, _, hp2⟩
      · cases e2 with
        | none => exact absurd rfl hne
        | some e3 =>
          simp only [Run.ret.injEq, Prod.mk.injEq] at h2
          rw [← h2.2.1, hp2]; exact hinv
      · subst he
        simp only at h2
        rw [Run.bind_eq_ret] at h2
        obtain ⟨p3, h3, h4⟩ := h2
        refine ih p3 w2 ?_ h4
        rw [hp2] at h3
        simp only [getVarFromResult, Run.ret.injEq] at h3
        rw [← h3]
        exact ⟨r, by rw [foldResult_result], foldResult_nextUri _ _⟩
    · simp only [Run.ret.injEq, Prod.mk.injEq] at h
      rw [← h.2.1]; exact hinv

/-- Whenever `WaitQueryExec` returns, the continuation it leaves is that of
the page it leaves stored. -/
theorem WaitQueryExec_stored (urlErr : String → Option String)
    (p p1 : prestoClient) (w w1 : World) (e : Option String)
    (h : WaitQueryExec urlErr p w = .ret (e, p1, w1)) :
    ∃ dat, p1.result = some dat ∧ p1.nextUri = dat.NextUri := by
  rw [WaitQueryExec, Run.bind_eq_ret] at h
  obtain ⟨p2, h1, h2⟩ := h
  rw [Run.bind_eq_ret] at h2
  obtain ⟨⟨e3, p3, w3⟩, h3, h4⟩ := h2
  have hinv : ∃ dat, p2.result = some dat ∧ p2.nextUri = dat.NextUri := by
    unfold getVarFromResult at h1
    cases hr : p.result with
    | none => simp [hr] at h1
    | some dat =>
      simp only [hr, Run.ret.injEq] at h1
      rw [← h1]
      exact ⟨dat, by rw [foldResult_result, hr], foldResult_nextUri _ _⟩
  have hst := WaitQueryExecLoop_stored urlErr _ _ _ _ _ _ hinv h3
  have hp : p1 = p3 := by
    cases e3 with
    | some e4 =>
      simp only [Run.ret.injEq, Prod.mk.injEq] at h4
      exact h4.2.1.symm
    | none =>
      simp only at h4
      split at h4 <;>
      · simp only [Run.ret.injEq, Prod.mk.injEq] at h4
        exact h4.2.1.symm
  rw [hp]; exact hst

/-- `WaitQueryExec` on a session whose stored page has no continuation:
the page is folded, no poll is made. -/
theorem WaitQueryExec_no_poll (urlErr : String → Option String) (p : prestoClient)
    (last : queryResult) (w : World) (hres : p.result = some last)
    (hlast : last.NextUri = "") :
    WaitQueryExec urlErr p w =
      .ret (if (foldResult p last).state ≠ "FINISHED" then
              some "Incoherent State at end of query"
            else none,
            foldResult p last, w) := by
  simp only [WaitQueryExec, getVarFromResult, hres, Run.bind_ret]
  rw [WaitQueryExecLoop_done urlErr _ _ _ (by rw [foldResult_nextUri]; exact hlast)]
  simp only [Run.bind_ret]
  split <;> rfl

/-- C17: on a session left by a `WaitQueryExec` that ended with `nextUri`
empty, a further `WaitQueryExec` returns without sending a request or
sleeping, and it folds the stored last page once more: `datas` afterwards is
`datas` before followed by the rows of that page, so it is unchanged exactly
when the page carries no rows. -/
theorem C17_reentry_folds_last_page_again (urlErr : String → Option String)
    (p0 p : prestoClient) (w0 w w2 : World) (e0 : Option String)
    (hprev : WaitQueryExec urlErr p0 w0 = .ret (e0, p, w))
    (hnext : p.nextUri = "") :
    ∃ (last : queryResult) (e1 : Option String) (p1 : prestoClient),
      p.result = some last ∧
      WaitQueryExec urlErr p w2 = .ret (e1, p1, w2) ∧
      p1.datas = p.datas ++ last.Data ∧
      (p1.datas = p.datas ↔ last.Data = []) := by
  obtain ⟨last, hres, huri⟩ := WaitQueryExec_stored urlErr p0 p w0 w e0 hprev
  have hlast : last.NextUri = "" := by rw [← huri]; exact hnext
  have hdatas : (foldResult p last).datas = p.datas ++ last.Data := by
    rw [foldResult_eq]
  refine ⟨last, _, _, hres, WaitQueryExec_no_poll urlErr p last w2 hres hlast, hdatas, ?_⟩
  rw [hdatas]; simp

/-- C17 on a query of two pages: the second `WaitQueryExec` repeats the row
of the last page and leaves the world as it was. -/
theorem C17_reentry_folds_last_page_again_witness :
    ∃ (last : queryResult) (e1 : Option String) (p1 : prestoClient),
      ({ freshClient with
          request := "SELECT 1", result := some finishedPage, state := "FINISHED",
          datas := ["[1]"], columns := ["n"],
          infoUri := "http://h:8080/ui/q1" } : prestoClient).result = some last ∧
      WaitQueryExec anyUrl
          { freshClient with
            request := "SELECT 1", result := some finishedPage, state := "FINISHED",
            datas := ["[1]"], columns := ["n"], infoUri := "http://h:8080/ui/q1" }
          ⟨[.resp (pageResponse canceledPage)], []⟩ =
        .ret (e1, p1, ⟨[.resp (pageResponse canceledPage)], []⟩) ∧
      p1.datas = ["[1]"] ++ last.Data ∧
      (p1.datas = ["[1]"] ↔ last.Data = []) :=
  C17_reentry_folds_last_page_again anyUrl
    { freshClient with request := "SELECT 1", result := some queuedPage, state := "RUNNING" }
    { freshClient with
      request := "SELECT 1", result := some finishedPage, state := "FINISHED",
      datas := ["[1]"], columns := ["n"], infoUri := "http://h:8080/ui/q1" }
    ⟨[.resp (pageResponse finishedPage)], []⟩
    ⟨[], [.slept initialRetry,
          .sent (addHeaders freshClient ⟨"GET", "http://h:8080/v1/statement/q1/1", none, []⟩)]⟩
    ⟨[.resp (pageResponse canceledPage)], []⟩ none (by decide) rfl

theorem Run.bind_eq_panic {α β : Type} (r : Run α) (f : α → Run β) (why : Fault) :
    r.bind f = .panic why ↔ r = .panic why ∨ ∃ a, r = .ret a ∧ f a = .panic why := by
  cases r <;> simp [Run.bind]

theorem makeRequestLoop_ne_panic (req : Request) (answers : List Answer) (retry : Nat)
    (tr : List Event) (why : Fault) : makeRequestLoop req retry answers tr ≠ .panic why := by
  induction answers generalizing retry tr with
  | nil => simp [makeRequestLoop]
  | cons a rest ih =>
    cases a with
    | fail e => simp [makeRequestLoop]
    | resp r =>
      simp only [makeRequestLoop]
      split
      · simp
      · split
        · simp
        · exact ih _ _

/-- The only fault of `makeRequest` is the nil request. -/
theorem makeRequest_panic (p : prestoClient) (req : Option Request) (w : World) (why : Fault)
    (h : makeRequest p req w = .panic why) : why = .nilRequest := by
  cases req with
  | none =>
    simp only [makeRequest, Run.panic.injEq] at h
    exact h.symm
  | some r => exact absurd h (makeRequestLoop_ne_panic _ _ _ _ _)

theorem getPrestoRequest_panic (p : prestoClient) (req : Option Request) (w : World)
    (why : Fault) (h : getPrestoRequest p req w = .panic why) : why = .nilRequest := by
  rw [getPrestoRequest, Run.bind_eq_panic] at h
  rcases h with h | ⟨⟨r, w1⟩, _, h⟩
  · exact makeRequest_panic _ _ _ _ h
  · cases r with
    | err e => simp at h
    | ok res =>
      simp only at h
      split at h
      · simp at h
      · split at h <;> simp at h

/-- The loop of `WaitQueryExec` never faults on a missing page: each fold in
it comes after a poll that stored a page. -/
theorem WaitQueryExecLoop_ne_nilResult (urlErr : String → Option String) (fuel : Nat)
    (p : prestoClient) (w : World) :
    WaitQueryExecLoop urlErr fuel p w ≠ .panic .nilResult := by
  induction fuel generalizing p w with
  | zero => simp [WaitQueryExecLoop]
  | succ fuel ih =>
    simp only [WaitQueryExecLoop]
    split
    · intro h
      rw [Run.bind_eq_panic] at h
      rcases h with h | ⟨⟨e, p1, w1⟩, h1, h2⟩
      · have := getPrestoRequest_panic _ _ _ _ h
        cases this
      · rcases getPrestoRequest_ret _ _ _ _ _ _ h1 with ⟨hne, _⟩ | ⟨he, r, _, hp1⟩
        · cases e with
          | none => exact absurd rfl hne
          | some e2 => simp at h2
        · subst he
          simp only at h2
          rw [hp1] at h2
          simp only [getVarFromResult, Run.bind_ret] at h2
          exact ih _ _ h2
    · simp

/-- `WaitQueryExec` faults on a missing page only when `result` is nil. -/
theorem WaitQueryExec_ne_nilResult (urlErr : String → Option String) (p : prestoClient)
    (w : World) (h : p.result.isSome) : WaitQueryExec urlErr p w ≠ .panic .nilResult := by
  cases hr : p.result with
  | none => simp [hr] at h
  | some dat =>
    simp only [WaitQueryExec, getVarFromResult, hr, Run.bind_ret]
    intro hp
    rw [Run.bind_eq_panic] at hp
    rcases hp with hp | ⟨⟨e, p1, w1⟩, _, h2⟩
    · exact WaitQueryExecLoop_ne_nilResult urlErr _ _ _ hp
    · cases e with
      | some e2 => simp at h2
      | none =>
        simp only at h2
        split at h2 <;> simp at h2

/-- `GetFinishedQuery` faults on a missing page only when `result` is nil. -/
theorem GetFinishedQuery_ne_nilResult (urlErr : String → Option String) (p : prestoClient)
    (w : World) (h : p.result.isSome) : GetFinishedQuery urlErr p w ≠ .panic .nilResult := by
  cases hr : p.result with
  | none => simp [hr] at h
  | some dat =>
    simp only [GetFinishedQuery, hr]
    intro hp
    rw [Run.bind_eq_panic] at hp
    rcases hp with hp | ⟨⟨r, w1⟩, _, h2⟩
    · have := makeRequest_panic _ _ _ _ hp
      cases this
    · cases r <;> simp at h2

/-- A `NewQuery` that returns `nil` has stored a page. -/
theorem NewQuery_ok_result (urlErr : String → Option String)
    (p p1 : prestoClient) (request : String) (w w1 : World)
    (h : NewQuery urlErr p request w = .ret (none, p1, w1)) : p1.result.isSome := by
  simp only [NewQuery, getFirstQuery] at h
  split at h
  · simp at h
  · rw [Run.bind_eq_ret] at h
    obtain ⟨⟨e2, p2, w2⟩, h1, h2⟩ := h
    rcases getPrestoRequest_ret _ _ _ _ _ _ h1 with ⟨hne, _⟩ | ⟨he, r, _, hp2⟩
    · cases e2 with
      | none => exact absurd rfl hne
      | some e3 => simp at h2
    · subst he
      simp only [Run.ret.injEq, Prod.mk.injEq, true_and] at h2
      rw [← h2.1, hp2]
      rfl

theorem NewQuery_result (urlErr : String → Option String)
    (p p1 : prestoClient) (request : String) (w w1 : World) (e : Option String)
    (h : NewQuery urlErr p request w = .ret (e, p1, w1)) (hp : p.result.isSome) :
    p1.result.isSome := by
  simp only [NewQuery, getFirstQuery] at h
  split at h
  · simp only [Run.ret.injEq, Prod.mk.injEq] at h
    rw [← h.2.1]; exact hp
  · rw [Run.bind_eq_ret] at h
    obtain ⟨⟨e2, p2, w2⟩, h1, h2⟩ := h
    have hp2 : p2.result.isSome := by
      rcases getPrestoRequest_ret _ _ _ _ _ _ h1 with ⟨_, h3⟩ | ⟨_, r, _, h3⟩
      · rw [h3]; exact hp
      · rw [h3]; rfl
    cases e2 with
    | some e3 =>
      simp only [Run.ret.injEq, Prod.mk.injEq] at h2
      rw [← h2.2.1]; exact hp2
    | none =>
      simp only [Run.ret.injEq, Prod.mk.injEq] at h2
      rw [← h2.2.1]; exact hp2

theorem WaitQueryExec_result (urlErr : String → Option String)
    (p p1 : prestoClient) (w w1 : World) (e : Option String)
    (h : WaitQueryExec urlErr p w = .ret (e, p1, w1)) : p1.result.isSome := by
  obtain ⟨dat, hd, _⟩ := WaitQueryExec_stored urlErr p p1 w w1 e h
  rw [hd]; rfl

theorem Close_result (urlErr : String → Option String)
    (p p1 : prestoClient) (w w1 : World) (e : Option String)
    (h : Close urlErr p w = .ret (e, p1, w1)) : p1.result = p.result := by
  cases hc : p.closed with
  | true =>
    rw [Close_closed urlErr p w hc] at h
    simp only [Run.ret.injEq, Prod.mk.injEq] at h
    rw [← h.2.1]
  | false =>
    rw [Close_open urlErr p w hc, Run.bind_eq_ret] at h
    obtain ⟨⟨r, w2⟩, _, h2⟩ := h
    cases r with
    | err e2 =>
      simp only [Run.ret.injEq, Prod.mk.injEq] at h2
      rw [← h2.2.1]
    | ok res =>
      simp only at h2
      split at h2 <;>
      · simp only [Run.ret.injEq, Prod.mk.injEq] at h2
        rw [← h2.2.1]

/-- No operation that returns removes the stored page. -/
theorem runOp_result (urlErr : String → Option String) (op : Op)
    (p p1 : prestoClient) (w w1 : World) (hp : p.result.isSome)
    (h : runOp urlErr op p w = .ret (p1, w1)) : p1.result.isSome := by
  cases op with
  | newQuery request =>
    simp only [runOp, Run.bind_eq_ret] at h
    obtain ⟨⟨e, p2, w2⟩, h1, h2⟩ := h
    simp only [Run.ret.injEq, Prod.mk.injEq] at h2
    rw [← h2.1]; exact NewQuery_result _ _ _ _ _ _ _ h1 hp
  | waitQueryExec =>
    simp only [runOp, Run.bind_eq_ret] at h
    obtain ⟨⟨e, p2, w2⟩, h1, h2⟩ := h
    simp only [Run.ret.injEq, Prod.mk.injEq] at h2
    rw [← h2.1]; exact WaitQueryExec_result _ _ _ _ _ _ h1
  | getData =>
    simp only [runOp, Run.ret.injEq, Prod.mk.injEq] at h
    rw [← h.1]
    unfold GetData
    split <;> exact hp
  | getFinishedQuery =>
    simp only [runOp, Run.bind_eq_ret] at h
    obtain ⟨⟨e, p2, w2⟩, h1, h2⟩ := h
    simp only [Run.ret.injEq, Prod.mk.injEq] at h2
    rw [← h2.1, GetFinishedQuery_session _ _ _ _ _ _ h1]; exact hp
  | columns =>
    simp only [runOp, Columns, Run.ret.injEq, Prod.mk.injEq] at h
    rw [← h.1]; exact hp
  | close =>
    simp only [runOp, Run.bind_eq_ret] at h
    obtain ⟨⟨e, p2, w2⟩, h1, h2⟩ := h
    simp only [Run.ret.injEq, Prod.mk.injEq] at h2
    rw [← h2.1, Close_result _ _ _ _ _ _ h1]; exact hp

theorem runOps_result (urlErr : String → Option String) (ops : List Op)
    (p p1 : prestoClient) (w w1 : World) (hp : p.result.isSome)
    (h : runOps urlErr ops p w = .ret (p1, w1)) : p1.result.isSome := by
  induction ops generalizing p w with
  | nil =>
    simp only [runOps, Run.ret.injEq, Prod.mk.injEq] at h
    rw [← h.1]; exact hp
  | cons op ops ih =>
    simp only [runOps, Run.bind_eq_ret] at h
    obtain ⟨⟨p2, w2⟩, h1, h2⟩ := h
    exact ih _ _ (runOp_result _ _ _ _ _ _ hp h1) h2

/-- C18: a client returned by `New` has no stored page, and `WaitQueryExec`
and `GetFinishedQuery` fault on it by dereferencing the nil `result`. After
a `NewQuery` that returned `nil` the page is stored, and it stays stored
through every sequence of later operations (`NewQuery`, `WaitQueryExec`,
`GetData`, `Columns`, `GetFinishedQuery`, `Close`) that return, with an error
or without; on the session they leave neither `WaitQueryExec` nor
`GetFinishedQuery` faults on a missing page. -/
theorem C18_stored_page_stays_present (urlErr : String → Option String)
    (curl catalog request : String) (p p1 p2 : prestoClient) (w w1 w2 w3 w4 : World)
    (ops : List Op)
    (hnew : NewQuery urlErr p request w = .ret (none, p1, w1))
    (hops : runOps urlErr ops p1 w2 = .ret (p2, w3)) :
    (New curl catalog).result = none ∧
    WaitQueryExec urlErr (New curl catalog) w4 = .panic .nilResult ∧
    GetFinishedQuery urlErr (New curl catalog) w4 = .panic .nilResult ∧
    p1.result.isSome ∧
    p2.result.isSome ∧
    WaitQueryExec urlErr p2 w4 ≠ .panic .nilResult ∧
    GetFinishedQuery urlErr p2 w4 ≠ .panic .nilResult := by
  have h1 : p1.result.isSome := NewQuery_ok_result urlErr p p1 request w w1 hnew
  have h2 := runOps_result urlErr ops p1 p2 w2 w3 h1 hops
  exact ⟨rfl, rfl, rfl, h1, h2, WaitQueryExec_ne_nilResult urlErr p2 w4 h2,
    GetFinishedQuery_ne_nilResult urlErr p2 w4 h2⟩

/-- C18 on a fresh client: a query is submitted, driven to its end, read and
closed, and the page is still stored after that. -/
theorem C18_stored_page_stays_present_witness :
    (New "http://h:8080/v1/statement" "hive").result = none ∧
    WaitQueryExec anyUrl (New "http://h:8080/v1/statement" "hive")
        ⟨[.resp (pageResponse finishedPage)], []⟩ = .panic .nilResult ∧
    GetFinishedQuery anyUrl (New "http://h:8080/v1/statement" "hive")
        ⟨[.resp (pageResponse finishedPage)], []⟩ = .panic .nilResult ∧
    ({ freshClient with
        request := "SELECT 1", result := some queuedPage,
        state := "RUNNING" } : prestoClient).result.isSome ∧
    ({ freshClient with
        request := "SELECT 1", result := some finishedPage, state := "FINISHED",
        datas := ["[1]"], columns := ["n"], infoUri := "http://h:8080/ui/q1",
        closed := true } : prestoClient).result.isSome ∧
    WaitQueryExec anyUrl
        { freshClient with
          request := "SELECT 1", result := some finishedPage, state := "FINISHED",
          datas := ["[1]"], columns := ["n"], infoUri := "http://h:8080/ui/q1",
          closed := true }
        ⟨[.resp (pageResponse finishedPage)], []⟩ ≠ .panic .nilResult ∧
    GetFinishedQuery anyUrl
        { freshClient with
          request := "SELECT 1", result := some finishedPage, state := "FINISHED",
          datas := ["[1]"], columns := ["n"], infoUri := "http://h:8080/ui/q1",
          closed := true }
        ⟨[.resp (pageResponse finishedPage)], []⟩ ≠ .panic .nilResult :=
  C18_stored_page_stays_present anyUrl "http://h:8080/v1/statement" "hive" "SELECT 1"
    freshClient
    { freshClient with request := "SELECT 1", result := some queuedPage, state := "RUNNING" }
    { freshClient with
      request := "SELECT 1", result := some finishedPage, state := "FINISHED",
      datas := ["[1]"], columns := ["n"], infoUri := "http://h:8080/ui/q1", closed := true }
    ⟨[.resp (pageResponse queuedPage)], []⟩
    ⟨[], [.sent (addHeaders freshClient
            ⟨"POST", "http://h:8080/v1/statement", some "SELECT 1", []⟩)]⟩
    ⟨[.resp (pageResponse finishedPage), .resp noContentResponse], []⟩
    ⟨[], [.slept initialRetry,
          .sent (addHeaders freshClient ⟨"GET", "http://h:8080/v1/statement/q1/1", none, []⟩),
          .sent (addHeaders freshClient ⟨"DELETE", "", none, []⟩)]⟩
    ⟨[.resp (pageResponse finishedPage)], []⟩
    [.waitQueryExec, .getData, .columns, .close]
    (by decide) (by decide)

end Gtcpresto
